import Mathlib

/-!
Shallow embedding of the chatbot widget's client-side core
(`chatbot.state.js`, `chatbot.api.js`, `chatbot.js` submit handler and
bootstrap, `chatbot.dom.js` renderer/typing indicator, `chatbot.util.js`
formatter and splitter), together with proofs checking the repository's
natural-language specification against this embedding.

JavaScript values that the code stores without inspecting (ids, opaque
backend payloads, message texts taken from responses) are modelled by a
small dynamic-value type `JVal` with JavaScript truthiness.  Machine-level
details that the claims do not touch (the DOM, actual timers, real network
sockets) are abstracted: network interactions are driven by explicit
response oracles, timestamps and timer ids are passed as parameters.
-/

namespace Chatbot

/-- A JavaScript value as far as the chatbot core distinguishes them:
`undef` models `undefined` (an absent field), `null` the JS `null`,
plus strings, booleans and numbers; `blob` stands for any other opaque
object the client never inspects (the backend continuation payloads). -/
inductive JVal where
  | undef
  | null
  | str (s : String)
  | bool (b : Bool)
  | num (n : Int)
  | blob (tag : Nat)
deriving DecidableEq, Repr

/-- JavaScript truthiness for `JVal`: `undefined`, `null`, `""`, `false`
and `0` are falsy, everything else truthy. -/
def JVal.truthy : JVal → Bool
  | .undef => false
  | .null => false
  | .str s => !s.isEmpty
  | .bool b => b
  | .num n => n != 0
  | .blob _ => true

/-- One chat message as stored in `state.chatMessages`:
`{sender: "user"|"bot", text: ...}`.  The text is a `JVal` because the
code pushes `backend_result.message` without checking it is a string. -/
structure Message where
  sender : String
  text : JVal
deriving DecidableEq, Repr

/-- The process-wide mutable session record from `chatbot.state.js`:

    export let state = {
        chat_id: null, asked_info: null, data_var: null,
        chatStarted: false, privacyAccepted: false, final_message: null,
        chatMessages: [], botIsTyping: true, waitStart: null,
        fallbackTimer: null };

`waitStart` is a timestamp-or-null, `fallbackTimer` a timer-handle-or-null. -/
structure State where
  chat_id : JVal
  asked_info : JVal
  data_var : JVal
  chatStarted : Bool
  privacyAccepted : Bool
  final_message : JVal
  chatMessages : List Message
  botIsTyping : Bool
  waitStart : Option Nat
  fallbackTimer : Option Nat
deriving DecidableEq, Repr

/-- The initial value of `state` in `chatbot.state.js`. -/
def initialState : State :=
  { chat_id := .null
    asked_info := .null
    data_var := .null
    chatStarted := false
    privacyAccepted := false
    final_message := .null
    chatMessages := []
    botIsTyping := true
    waitStart := none
    fallbackTimer := none }

/-! ## Renderer and typing indicator (`chatbot.dom.js`)

`renderMessages` rebuilds the DOM from the state; its only effects on the
session record itself are on `waitStart` (line 39: set to `Date.now()` when
typing and not yet set; line 60: cleared when not typing).  The DOM output
and the `saveChatbotSession()` call at its end have no effect on `state`. -/

/-- State effect of `renderMessages()` (`chatbot.dom.js` lines 8-88),
with the current clock value passed in for `Date.now()`. -/
def renderMessages (now : Nat) (s : State) : State :=
  if s.botIsTyping then
    { s with waitStart := some (s.waitStart.getD now) }
  else
    { s with waitStart := none }

/-- `startTypingIndicator()` (`chatbot.dom.js` lines 91-103): sets the
typing flag, resets `waitStart`, renders, and arms the fallback timer
(`setTimeout` returns the opaque handle `tid`).  The timer callback only
patches displayed text, never the session record. -/
def startTypingIndicator (now tid : Nat) (s : State) : State :=
  let s1 := renderMessages now { s with botIsTyping := true, waitStart := none }
  { s1 with fallbackTimer := some tid }

/-- `stopTypingIndicator()` (`chatbot.dom.js` lines 105-110): clears the
typing flag, cancels the pending timer (`clearTimeout` does not null the
stored handle), clears `waitStart` and re-renders. -/
def stopTypingIndicator (now : Nat) (s : State) : State :=
  renderMessages now { s with botIsTyping := false, waitStart := none }

/-! ## Transport client (`chatbot.api.js`)

A `fetch` either rejects (network failure) or resolves with a status code
and a body; `resp.json()` throws exactly when the body is not JSON, which
the model folds into the parsed-body option.  The code never reads
`resp.status` or `resp.ok`. -/

/-- Outcome of one `fetch` as the code can observe it: `reject` is a
network failure; `resolve status parsed` is a settled HTTP response whose
body parses to `parsed` (`none` when `resp.json()` would throw). -/
inductive FetchResult (α : Type) where
  | reject
  | resolve (status : Nat) (parsed : Option α)
deriving DecidableEq, Repr

/-- Parsed JSON body of `GET {backend}/chat/new`: the fields the code
reads (`id`, `data`, `message`), each `JVal.undef` when absent. -/
structure NewChatBody where
  id : JVal
  data : JVal
  message : JVal
deriving DecidableEq, Repr

/-- The `meta` object of a send response.  `final_message` is `JVal.undef`
when the key is absent. -/
structure MetaObj where
  final_message : JVal
deriving DecidableEq, Repr

/-- Parsed JSON body of `POST {backend}/chat/{id}`: fields the code reads.
`meta = none` models `meta` being `undefined` or `null`, in which case
evaluating `backend_result.meta.final_message` throws; a non-object `meta`
whose property access yields `undefined` is `some ⟨JVal.undef⟩`. -/
structure SendBody where
  id : JVal
  data : JVal
  message : JVal
  meta : Option MetaObj
deriving DecidableEq, Repr

/-- The bot apology appended by `startChat`'s catch block. -/
def startChatApology : String :=
  "Es scheint, dass es gerade ein kleines Problem beim Start des Chats gibt. Ich versuche gerade, die Verbindung erneut herzustellen. Einen kleinen Moment bitte – wir sind gleich für Sie da. Vielen Dank für Ihre Geduld und Ihr Verständnis."

/-- The bot apology appended by `sendChatMessage`'s catch block. -/
def sendApology : String :=
  "Der Chat braucht gerade noch einen kleinen Moment, um zu starten. Ich versuche die Verbindung nochmal herzustellen – danke für Ihre Geduld, wir sind gleich für Sie da!"

/-- `startChat()` (`chatbot.api.js` lines 34-59) on one fetch outcome.
Returns the new state and the function's boolean result.  The catch path
is taken when the fetch rejects or `resp.json()` throws; the status code
is never consulted. -/
def startChat (resp : FetchResult NewChatBody) (now : Nat) (s : State) :
    State × Bool :=
  match resp with
  | .resolve _ (some b) =>
    let s1 := { s with chat_id := b.id, data_var := b.data,
                       chatStarted := true, waitStart := none }
    if b.message.truthy then
      let s2 := { s1 with
        chatMessages := s1.chatMessages ++ [⟨"bot", b.message⟩],
        botIsTyping := false }
      (renderMessages now s2, true)
    else
      (s1, true)
  | _ =>
    let s1 := { s with
      chatMessages := s.chatMessages ++ [⟨"bot", .str startChatApology⟩],
      botIsTyping := true }
    (renderMessages now s1, false)

/-- The JSON body `sendChatMessage` posts:
`{asked_info: state.asked_info, data: state.data_var, message: userEntry}`. -/
structure SendRequest where
  asked_info : JVal
  data : JVal
  message : String
deriving DecidableEq, Repr

/-- Request body constructed at `chatbot.api.js` lines 68-72. -/
def sendRequestBody (s : State) (userEntry : String) : SendRequest :=
  ⟨s.asked_info, s.data_var, userEntry⟩

/-- Shared catch block of `sendChatMessage` (`chatbot.api.js` lines
86-92): append the apology, stop the typing indicator, re-render. -/
def sendCatch (now : Nat) (s : State) : State :=
  let s1 := { s with
    chatMessages := s.chatMessages ++ [⟨"bot", .str sendApology⟩] }
  renderMessages now (stopTypingIndicator now s1)

/-- `sendChatMessage(userEntry)` (`chatbot.api.js` lines 61-94) on one
fetch outcome.  Returns the new state, the boolean result, and the request
body it posted.  The try block throws (and the catch path runs with no
prior state mutation) when the fetch rejects, the body is not JSON, or
`backend_result.meta` is not an object; the status code is never read. -/
def sendChatMessage (resp : FetchResult SendBody) (userEntry : String)
    (now : Nat) (s : State) : State × Bool × SendRequest :=
  let req := sendRequestBody s userEntry
  match resp with
  | .resolve _ (some b) =>
    match b.meta with
    | some m =>
      let fm := if m.final_message.truthy then m.final_message
                else JVal.bool false
      let s1 := { s with final_message := fm }
      let s2 := stopTypingIndicator now s1
      let s3 := { s2 with chatMessages := s2.chatMessages ++ [⟨"bot", b.message⟩] }
      let s4 := renderMessages now s3
      let s5 := { s4 with chat_id := b.id, data_var := b.data }
      (s5, true, req)
    | none => (sendCatch now s, false, req)
  | .resolve _ none => (sendCatch now s, false, req)
  | .reject => (sendCatch now s, false, req)

/-- The whitespace set of JS `String.prototype.trim` (WhiteSpace and
LineTerminator code points). -/
def isJsWhitespace (c : Char) : Bool :=
  c = ' ' || c = '\t' || c = '\n' || c = '\r' ||
  c = '\x0b' || c = '\x0c' || c = '\u00A0' || c = '\u1680' ||
  ('\u2000' ≤ c && c ≤ '\u200A') || c = '\u2028' || c = '\u2029' ||
  c = '\u202F' || c = '\u205F' || c = '\u3000' || c = '\uFEFF' 

/-- JS `s.trim()` on a character list. -/
def jsTrim (l : List Char) : List Char :=
  (l.dropWhile isJsWhitespace).reverse.dropWhile isJsWhitespace |>.reverse

/-! ## Orchestrator (`chatbot.js`)

The submit handler and the bootstrap drive the transport client with a
manually unrolled triple retry.  Network behaviour is supplied as a list
of fetch outcomes, one per attempt; an attempt beyond the supplied list is
treated as a rejection. -/

/-- The bot message appended when submitting without a `chat_id`. -/
def notConnectedMsg : String := "Chatverbindung nicht hergestellt."

/-- The final apology of the submit handler after three failed sends
(`chatbot.js` line 54; the en-dash is mojibake in the source file). -/
def giveUpApology : String :=
  "Es hat mit der Verbindung leider nicht ganz geklappt. Ein kurzes Neuladen der Seite hilft meistens â€“ bitte versuchen Sie es einmal."

/-- The bot message appended when the bootstrap fails three times. -/
def reloadApology : String :=
  "Entschuldigung, ich konnte leider keine Verbindung aufbauen. Bitte laden Sie die Seite neu und versuchen Sie es noch einmal."

/-- Result of one run of the submit handler: the state after the handler
returns, the number of `sendChatMessage` calls made, whether the last
send succeeded, and the request bodies posted (in order). -/
structure SubmitResult where
  state : State
  attempts : Nat
  delivered : Bool
  requests : List SendRequest
deriving DecidableEq, Repr

/-- JS `String.prototype.trim` (drops leading and trailing JS
whitespace). -/
def jsTrimStr (s : String) : String := (jsTrim s.data).asString

/-- The form submit handler (`chatbot.js` lines 33-60).  `rawInput` is
`input.value`; `resps` supplies the fetch outcome of each send attempt.
Mirrors the source: trim and ignore empty input; append the user message;
render; start the typing indicator; guard on a falsy `chat_id` (stop
typing, append `notConnectedMsg`, return without any network call);
otherwise send with up to two retries, appending `giveUpApology` and
re-rendering if all three attempts fail. -/
def submitHandler (resps : List (FetchResult SendBody)) (rawInput : String)
    (now tid : Nat) (s : State) : SubmitResult :=
  let userEntry := jsTrimStr rawInput
  if userEntry.isEmpty then
    ⟨s, 0, false, []⟩
  else
    let s1 := { s with chatMessages := s.chatMessages ++ [⟨"user", .str userEntry⟩] }
    let s2 := renderMessages now s1
    let s3 := startTypingIndicator now tid s2
    if !s3.chat_id.truthy then
      let s4 := stopTypingIndicator now s3
      let s5 := { s4 with chatMessages := s4.chatMessages ++ [⟨"bot", .str notConnectedMsg⟩] }
      ⟨s5, 0, false, []⟩
    else
      let a1 := sendChatMessage (resps.getD 0 .reject) userEntry now s3
      if a1.2.1 then ⟨a1.1, 1, true, [a1.2.2]⟩
      else
        let a2 := sendChatMessage (resps.getD 1 .reject) userEntry now a1.1
        if a2.2.1 then ⟨a2.1, 2, true, [a1.2.2, a2.2.2]⟩
        else
          let a3 := sendChatMessage (resps.getD 2 .reject) userEntry now a2.1
          if a3.2.1 then ⟨a3.1, 3, true, [a1.2.2, a2.2.2, a3.2.2]⟩
          else
            let s7 := { a3.1 with chatMessages := a3.1.chatMessages ++ [⟨"bot", .str giveUpApology⟩] }
            let s8 := renderMessages now s7
            ⟨s8, 3, false, [a1.2.2, a2.2.2, a3.2.2]⟩

/-- `startNewChatIfNeeded` (`chatbot.js` lines 11-30): no-op if a chat has
already started; otherwise render once, then try `startChat` up to three
times, appending `reloadApology` and re-rendering if all fail.  Returns
the state and the number of `startChat` calls made. -/
def startNewChatIfNeeded (resps : List (FetchResult NewChatBody))
    (now : Nat) (s : State) : State × Nat :=
  if s.chatStarted then (s, 0)
  else
    let s1 := renderMessages now s
    let a1 := startChat (resps.getD 0 .reject) now s1
    if a1.2 then (a1.1, 1)
    else
      let a2 := startChat (resps.getD 1 .reject) now a1.1
      if a2.2 then (a2.1, 2)
      else
        let a3 := startChat (resps.getD 2 .reject) now a2.1
        if a3.2 then (a3.1, 3)
        else
          let s5 := { a3.1 with chatMessages := a3.1.chatMessages ++ [⟨"bot", .str reloadApology⟩] }
          (renderMessages now s5, 3)

/-! ## Session store (`chatbot.state.js`)

`saveChatbotSession` writes `JSON.stringify(state)` under the storage key
`chatbotState`; `loadChatbotSession` parses it and merges it over the
in-memory record with `Object.assign`, then recomputes `botIsTyping` when
that key was absent in the stored data.  A stored object is modelled
field-by-field with `Option` (a `none` field is one absent from the stored
JSON).  `JSON.stringify` drops keys whose value is `undefined`, which is
why `save` maps a `JVal.undef` field to an absent key. -/

/-- A stored `chatbotState` object: each field present or absent. -/
structure StoredState where
  chat_id : Option JVal
  asked_info : Option JVal
  data_var : Option JVal
  chatStarted : Option Bool
  privacyAccepted : Option Bool
  final_message : Option JVal
  chatMessages : Option (List Message)
  botIsTyping : Option Bool
  waitStart : Option (Option Nat)
  fallbackTimer : Option (Option Nat)
deriving DecidableEq, Repr

/-- `JSON.stringify` of one field: an `undefined` value produces no key. -/
def jsonField (v : JVal) : Option JVal :=
  if v = .undef then none else some v

/-- `saveChatbotSession()` (`chatbot.state.js` lines 16-18). -/
def saveChatbotSession (s : State) : StoredState :=
  { chat_id := jsonField s.chat_id
    asked_info := jsonField s.asked_info
    data_var := jsonField s.data_var
    chatStarted := some s.chatStarted
    privacyAccepted := some s.privacyAccepted
    final_message := jsonField s.final_message
    chatMessages := some s.chatMessages
    botIsTyping := some s.botIsTyping
    waitStart := some s.waitStart
    fallbackTimer := some s.fallbackTimer }

/-- `loadChatbotSession()` (`chatbot.state.js` lines 20-26): merge the
stored fields over the in-memory record `s`, then, if the stored data had
no `botIsTyping` key, set it to whether the (merged) message list is
empty. -/
def loadChatbotSession (saved : StoredState) (s : State) : State :=
  let m : State :=
    { chat_id := saved.chat_id.getD s.chat_id
      asked_info := saved.asked_info.getD s.asked_info
      data_var := saved.data_var.getD s.data_var
      chatStarted := saved.chatStarted.getD s.chatStarted
      privacyAccepted := saved.privacyAccepted.getD s.privacyAccepted
      final_message := saved.final_message.getD s.final_message
      chatMessages := saved.chatMessages.getD s.chatMessages
      botIsTyping := saved.botIsTyping.getD s.botIsTyping
      waitStart := saved.waitStart.getD s.waitStart
      fallbackTimer := saved.fallbackTimer.getD s.fallbackTimer }
  if saved.botIsTyping.isNone then
    { m with botIsTyping := m.chatMessages.length = 0 }
  else m

/-! ## Block splitter (`chatbot.util.js`, `splitIntoSubblocks`)

Strings are modelled as their character lists (the inputs of interest are
plain text, where JS code units and code points agree). -/

/-- ASCII `[A-Z]`. -/
def isAsciiUpper (c : Char) : Bool := 'A' ≤ c && c ≤ 'Z'

/-- JS `s.slice(a, b)` (for `a ≤ b` within bounds, the only uses here). -/
def jsSlice (l : List Char) (a b : Nat) : List Char :=
  (l.drop a).take (b - a)

/-- `needle` occurs at the start of `hay`. -/
def strStarts (needle hay : List Char) : Bool :=
  hay.take needle.length = needle

/-- JS `hay.lastIndexOf(needle)` for a non-empty needle: the greatest
index where `needle` occurs, or `-1`. -/
def lastIndexOf (hay needle : List Char) : Int :=
  match ((List.range hay.length).filter
      (fun i => strStarts needle (hay.drop i))).max? with
  | some i => (i : Int)
  | none => -1

/-- `text.split(/\n{2}(?=[A-Z])/)`: split at every two consecutive
newlines that are immediately followed by an ASCII uppercase letter (the
lookahead character is not consumed).  `acc` is the current part,
reversed. -/
def paragraphSplit (acc : List Char) : List Char → List (List Char)
  | '\n' :: '\n' :: c :: rest =>
    if isAsciiUpper c then
      acc.reverse :: paragraphSplit [] (c :: rest)
    else
      paragraphSplit ('\n' :: acc) ('\n' :: c :: rest)
  | c :: rest => paragraphSplit (c :: acc) rest
  | [] => [acc.reverse]

/-- One round of the fixed-window chunking loop of `splitIntoSubblocks`
(lines 63-78), with explicit fuel so that the function is structurally
recursive: take up to `maxLen` characters, cut at the last `'\n'` or
`". "` in the window if any (advancing the cursor one past the cut
index), otherwise hard-cut at the window edge.  The cursor strictly
advances on every round whenever `maxLen ≥ 1`, so `text.length` rounds of
fuel always suffice; for `maxLen = 0` and a non-empty text the JS loop
never advances and diverges, and the model returns after the fuel runs
out (all claims assume `maxLen ≥ 1`). -/
def chunkLoopF (text : List Char) (maxLen : Nat) :
    Nat → Nat → List (List Char)
  | 0, _ => []
  | fuel + 1, cursor =>
    if cursor < text.length then
      let next := min text.length (cursor + maxLen)
      let snippet := jsSlice text cursor next
      let sep := max (lastIndexOf snippet ['\n']) (lastIndexOf snippet ['.', ' '])
      if sep > -1 then
        jsSlice text cursor (cursor + sep.toNat) ::
          chunkLoopF text maxLen fuel (cursor + sep.toNat + 1)
      else
        snippet :: chunkLoopF text maxLen fuel next
    else []

/-- The chunking loop from cursor 0 with always-sufficient fuel. -/
def chunkLoop (text : List Char) (maxLen : Nat) : List (List Char) :=
  chunkLoopF text maxLen text.length 0

/-- `splitIntoSubblocks(text, maxLen)` (`chatbot.util.js` lines 57-83):
paragraph split first; if that yields a single part and the text exceeds
`maxLen`, chunk instead; finally drop parts that are empty after
trimming. -/
def splitIntoSubblocks (text : String) (maxLen : Nat) : List String :=
  let parts := paragraphSplit [] text.data
  let parts :=
    if parts.length = 1 && decide (text.data.length > maxLen) then
      chunkLoop text.data maxLen
    else parts
  (parts.filter (fun p => !(jsTrim p).isEmpty)).map List.asString

/-- Interleave a list of blocks with the separator strings consumed
between consecutive blocks (used to state reconstruction properties of
the splitter).  A missing separator list means plain concatenation. -/
def interleave : List (List Char) → List (List Char) → List Char
  | [], _ => []
  | p :: ps, [] => p ++ ps.flatten
  | p :: ps, sep :: seps => p ++ sep ++ interleave ps seps

/-! ## Text formatter (`chatbot.util.js`: `cleanLink`, `renderMarkdown`)

The twelve regex replaces of `renderMarkdown` are embedded as explicit
left-to-right scanners with JavaScript `String.replace` semantics: find
the leftmost match, emit the replacement, continue after the match.  To
state the HTML-safety property of claim C1 — which is about where
characters *originating in the raw input* may appear — every scanner is
written polymorphically over the character representation `α`, with a
projection `char : α → Char` (all pattern tests only inspect `char`) and
a constructor `mk : Char → α` for the characters the formatter itself
produces.  `α := Char`, `char := mk := id` yields the plain string
function `renderMarkdown` mirroring the source; `α := Char × Origin`
additionally tags every character with its origin. -/

/-- Where a character of the formatter's output came from. -/
inductive Origin where
  | raw
  | gen
deriving DecidableEq, Repr

/-- ASCII `[A-Za-z]`. -/
def isAsciiAlpha (c : Char) : Bool :=
  ('A' ≤ c && c ≤ 'Z') || ('a' ≤ c && c ≤ 'z')

/-- ASCII `[A-Za-z0-9]`. -/
def isAsciiAlnum (c : Char) : Bool :=
  isAsciiAlpha c || ('0' ≤ c && c ≤ '9')

/-- JS regex `\w` (`[A-Za-z0-9_]`), used by `\b`. -/
def isWordChar (c : Char) : Bool := isAsciiAlnum c || c = '_'

/-- A `\b` word boundary between the previous character (`none` at the
start of the string) and the current one. -/
def wordBoundary (prev : Option Char) (c : Char) : Bool :=
  (match prev with | some p => isWordChar p | none => false) != isWordChar c

/-- JS regex `.` without the `s` flag: any char but a line terminator. -/
def isDotChar (c : Char) : Bool :=
  !(c = '\n' || c = '\r' || c = ' ' || c = ' ')

/-- ASCII-only lower casing, the case folding JS applies to the ASCII
literals of an `/i` regex. -/
def lowAscii (c : Char) : Char :=
  if 'A' ≤ c && c ≤ 'Z' then Char.ofNat (c.toNat + 32) else c

/-- Local-part characters of the email regexes: `[A-Za-z0-9._%+-]`. -/
def isLocalChar (c : Char) : Bool :=
  isAsciiAlnum c || c = '.' || c = '_' || c = '%' || c = '+' || c = '-'

/-- Domain characters of the email regexes: `[A-Za-z0-9.-]`. -/
def isDomainChar (c : Char) : Bool :=
  isAsciiAlnum c || c = '.' || c = '-'

/-- The trailing-junk classes of `cleanLink`'s third step:
`[)"'\]}>›»]`, `[.,;:!?…]` and `[—–-]` (any trailing run of these is
stripped). -/
def isUrlJunk (c : Char) : Bool :=
  c = ')' || c = '"' || c = '\'' || c = ']' || c = '\x7d' || c = '>' ||
  c = '›' || c = '»' ||
  c = '.' || c = ',' || c = ';' || c = ':' || c = '!' || c = '?' || c = '…' ||
  c = '—' || c = '–' || c = '-'

/-- Step 2 of `cleanLink` on the *reversed* string: remove the trailing
(in the original orientation) run of `/.` and `/..` units, if any.
`s.replace(/(?:\/\.\.?)+$/u, '/')` replaces such a run by a single `/`;
the caller re-adds the slash when this function removed anything. -/
def stripDotRuns (char : α → Char) : List α → List α
  | a :: b :: c :: rest =>
    if char a = '.' && char b = '.' && char c = '/' then
      stripDotRuns char rest
    else if char a = '.' && char b = '/' then
      stripDotRuns char (c :: rest)
    else a :: b :: c :: rest
  | a :: b :: rest =>
    if char a = '.' && char b = '/' then stripDotRuns char rest
    else a :: b :: rest
  | l => l

/-- `cleanLink(url)` (`chatbot.util.js` lines 11-23), polymorphically:
trim; collapse a trailing run of `/.`/`/..` to a single `/`; strip
trailing bracket/quote/punctuation/dash runs; strip trailing whitespace.
(The non-string input case of the source is outside this model.) -/
def cleanLinkP (char : α → Char) (mk : Char → α) (l : List α) : List α :=
  let ws := fun a => isJsWhitespace (char a)
  let r1 := ((l.dropWhile ws).reverse).dropWhile ws
  let r2 := stripDotRuns char r1
  let r3 := if r2.length < r1.length then mk '/' :: r2 else r2
  let r4 := r3.dropWhile (fun a => isUrlJunk (char a))
  let r5 := r4.dropWhile ws
  r5.reverse

/-- `cleanLink` as the plain string function of the source. -/
def cleanLink (url : String) : String :=
  (cleanLinkP id id url.data).asString

/-- One item of a replacement template: a formatter-generated literal
character, a copied slice (a captured group, `start`/`len` relative to
the match position), or such a slice passed through `cleanLink`. -/
inductive TItem where
  | lit (c : Char)
  | seg (start len : Nat)
  | cseg (start len : Nat)

/-- Literal template text. -/
def tpl (lits : String) : List TItem := lits.data.map TItem.lit

/-- A matcher: given the character just before the scan position (for
`\b`) and the characters from the scan position on, decide whether the
stage's regex matches here; if so, return the replacement template and
the number of characters consumed (all matchers here consume ≥ 1). -/
abbrev Matcher := Option Char → List Char → Option (List TItem × Nat)

/-- Materialise one template item over the input at the match position. -/
def runTItem (mk : Char → α) (clean : List α → List α) (s : List α) :
    TItem → List α
  | .lit c => [mk c]
  | .seg a n => (s.drop a).take n
  | .cseg a n => clean ((s.drop a).take n)

/-- Materialise a template. -/
def runTpl (mk : Char → α) (clean : List α → List α) (s : List α)
    (t : List TItem) : List α :=
  (t.map (runTItem mk clean s)).flatten

/-- The generic global-replace scanner: at each position try the matcher;
on a match emit the materialised template and continue after the consumed
characters, otherwise copy one character.  `fuel` only bounds the
recursion (each step consumes at least one character, so `s.length` fuel
is always enough); `prev` is the character before the scan position. -/
def scanReplF (char : α → Char) (mk : Char → α) (clean : List α → List α)
    (find : Matcher) : Nat → Option Char → List α → List α
  | 0, _, s => s
  | _ + 1, _, [] => []
  | fuel + 1, prev, a :: rest =>
    match find prev (List.map char (a :: rest)) with
    | some (t, k) =>
      runTpl mk clean (a :: rest) t ++
        scanReplF char mk clean find fuel
          (((a :: rest).take (k.max 1)).getLast?.map char)
          ((a :: rest).drop (k.max 1))
    | none => a :: scanReplF char mk clean find fuel (some (char a)) rest

/-- One full replace pass (`html.replace(regex, ...)` with `/g`). -/
def scanRepl (char : α → Char) (mk : Char → α) (clean : List α → List α)
    (find : Matcher) (s : List α) : List α :=
  scanReplF char mk clean find s.length none s

/-- A replace pass whose regex starts with `(^|\s)`: first try the
position-0 (`^`) alternative, then scan with the `\s` matcher. -/
def scanReplTop (char : α → Char) (mk : Char → α) (clean : List α → List α)
    (findTop : List Char → Option (List TItem × Nat)) (find : Matcher)
    (s : List α) : List α :=
  match findTop (List.map char s) with
  | some (t, k) =>
    runTpl mk clean s t ++
      scanReplF char mk clean find (s.drop (k.max 1)).length
        ((s.take (k.max 1)).getLast?.map char) (s.drop (k.max 1))
  | none => scanRepl char mk clean find s

/-- Matcher of one HTML-escaping step: the single character `c` becomes
the fixed entity `rep`. -/
def escM (c : Char) (rep : String) : Matcher := fun _ s =>
  match s with
  | a :: _ => if a = c then some (tpl rep, 1) else none
  | [] => none

/-- Case-insensitive (ASCII) comparison of `pat` (given in lower case)
against `s` at offset `i`. -/
def matchesCI (pat s : List Char) (i : Nat) : Bool :=
  ((s.drop i).take pat.length).map lowAscii = pat

/-- Case-sensitive comparison of `pat` against `s` at offset `i`. -/
def matchesCS (pat s : List Char) (i : Nat) : Bool :=
  (s.drop i).take pat.length = pat

/-- Match `https?:\/\/` at offset `i`; returns the scheme length (7 or
8).  With `ci` the literals are case-insensitive (the `/gi` link stage).
The `s?` is deterministic: taking the `s` requires `://` after it, and
`:` can never be `s`. -/
def schemeLen (ci : Bool) (s : List Char) (i : Nat) : Option Nat :=
  let m := fun pat j => if ci then matchesCI pat s j else matchesCS pat s j
  if m "http".data i then
    if m "s".data (i + 4) then
      if m "://".data (i + 5) then some 8 else none
    else
      if m "://".data (i + 4) then some 7 else none
  else none

/-- Matcher of `\[([^\]]+)\]\(mailto:([^)]+)\)` → `"$2"` (the mail-link
unwrapping, `/gi`). -/
def mailtoUnwrapM : Matcher := fun _ s =>
  match s with
  | '[' :: rest =>
    match rest.findIdx? (· = ']') with
    | some j1 =>
      if 1 ≤ j1 && s.get? (j1 + 2) = some '(' &&
          matchesCI "mailto:".data s (j1 + 3) then
        match (s.drop (j1 + 10)).findIdx? (· = ')') with
        | some j2 =>
          if 1 ≤ j2 then some ([.seg (j1 + 10) j2], j1 + 10 + j2 + 1)
          else none
        | none => none
      else none
    | none => none
  | _ => none

/-- Candidate end positions (in engine backtracking order) of
`\b[A-Za-z0-9._%+-]+@[A-Za-z0-9.-]+\.[A-Za-z]{2,}\b` matching at the
current position: the local part and the `@` are deterministic, the
domain/TLD split backtracks from the last feasible dot leftwards. -/
def tldFrom (s : List Char) (atSign : Nat) (D : List Char) : Nat → List Nat
  | 0 => []
  | p + 1 =>
    let rest := tldFrom s atSign D p
    if D.get? (p + 1) = some '.' then
      let A := ((D.drop (p + 2)).takeWhile isAsciiAlpha).length
      if 2 ≤ A then
        let e := atSign + 1 + (p + 1) + 1 + A
        if (s.get? e).elim true (fun c => !isWordChar c) then e :: rest
        else rest
      else rest
    else rest

/-- All candidate match lengths of the email regex at this position, in
engine order (longest domain prefix first); empty when it cannot match. -/
def emailCandidates (prev : Option Char) (s : List Char) : List Nat :=
  match s with
  | [] => []
  | c0 :: _ =>
    if wordBoundary prev c0 then
      let locN := (s.takeWhile isLocalChar).length
      if 1 ≤ locN && s.get? locN = some '@' then
        let D := (s.drop (locN + 1)).takeWhile isDomainChar
        tldFrom s locN D (D.length - 1)
      else []
    else []

/-- Matcher of the email-deduplication stage
`(\b…email…\b)(.{0,4})\1` → `"$1"`: an email match immediately followed
(within ≤ 4 non-newline characters) by the same text again. -/
def dedupGap (s : List Char) (L : Nat) : Nat → Option Nat
  | 0 => if (s.drop L).take L = s.take L then some 0 else none
  | n + 1 =>
    if ((s.drop L).take (n + 1)).length = n + 1 &&
        ((s.drop L).take (n + 1)).all isDotChar &&
        (s.drop (L + (n + 1))).take L = s.take L then
      some (n + 1)
    else dedupGap s L n

def dedupM : Matcher := fun prev s =>
  (emailCandidates prev s).firstM (fun L =>
    (dedupGap s L 4).map (fun n => ([TItem.seg 0 L], L + n + L)))

/-- Matcher of the email auto-link stage
`(\b…email…\b)` → `<a href="mailto:$1">$1</a>`. -/
def emailLinkM : Matcher := fun prev s =>
  match emailCandidates prev s with
  | L :: _ =>
    some (tpl "<a href=\"mailto:" ++ [.seg 0 L] ++ tpl "\">" ++
      [.seg 0 L] ++ tpl "</a>", L)
  | [] => none

/-- Matcher of `\[([^\]]+)\]\((https?:\/\/[^\s)]+)\)` →
`<a href="$2" target="_blank">$1</a>` (run twice in the source, first
with `/gi`, later with `/g`). -/
def mdLinkM (ci : Bool) : Matcher := fun _ s =>
  match s with
  | '[' :: rest =>
    match rest.findIdx? (· = ']') with
    | some j1 =>
      if 1 ≤ j1 && s.get? (j1 + 2) = some '(' then
        match schemeLen ci s (j1 + 3) with
        | some sl =>
          let run := ((s.drop (j1 + 3 + sl)).takeWhile
            (fun c => !isJsWhitespace c && c ≠ ')')).length
          if 1 ≤ run && s.get? (j1 + 3 + sl + run) = some ')' then
            some (tpl "<a href=\"" ++ [.seg (j1 + 3) (sl + run)] ++
              tpl "\" target=\"_blank\">" ++ [.seg 1 j1] ++ tpl "</a>",
              j1 + 3 + sl + run + 1)
          else none
        | none => none
      else none
    | none => none
  | _ => none

/-- Lazy search for the next `dd` pair with only non-line-terminator
characters before it (the `(.*?)` of the bold regexes). -/
def findPair (d : Char) : List Char → Option Nat
  | a :: b :: rest =>
    if a = d && b = d then some 0
    else if isDotChar a then (findPair d (b :: rest)).map (· + 1)
    else none
  | _ => none

/-- Matcher of `\*\*(.*?)\*\*` → `<b>$1</b>` (and of `__(.*?)__` with
`d := '_'`). -/
def boldM (d : Char) : Matcher := fun _ s =>
  match s with
  | a :: b :: rest =>
    if a = d && b = d then
      match findPair d rest with
      | some j => some (tpl "<b>" ++ [.seg 2 j] ++ tpl "</b>", j + 4)
      | none => none
    else none
  | _ => none

/-- Matcher of `(\s|\A)\*(?!\*)([^\*]+)\*` → `$1<i>$2</i>` (and the `_`
variant).  In a JavaScript regex `\A` is an identity escape matching the
literal character `A`, not a start-of-string anchor (see claim C4). -/
def italM (d : Char) : Matcher := fun _ s =>
  match s with
  | b0 :: d1 :: c2 :: rest =>
    if (isJsWhitespace b0 || b0 = 'A') && d1 = d && c2 ≠ d then
      let run := 1 + (rest.takeWhile (· ≠ d)).length
      if s.get? (2 + run) = some d then
        some ([.seg 0 1] ++ tpl "<i>" ++ [.seg 2 run] ++ tpl "</i>",
          run + 3)
      else none
    else none
  | _ => none

/-- The bullet stage `^\* (.*)$` → `&bull; $1` with `/gm`: per line,
replace a leading `* ` by `&bull; `.  `atStart` tracks line starts. -/
def bulletP (char : α → Char) (mk : Char → α) : Bool → List α → List α
  | _, [] => []
  | atStart, x :: xs =>
    match xs with
    | y :: rest =>
      if atStart && char x = '*' && char y = ' ' then
        ("&bull; ".data.map mk) ++ bulletP char mk false rest
      else x :: bulletP char mk (char x = '\n') (y :: rest)
    | [] => [x]

/-- `www.` plus a non-empty `[^\s<]+` run at offset `i`; returns the
total matched length. -/
def wwwBody (s : List Char) (i : Nat) : Option Nat :=
  if matchesCS "www.".data s i then
    let run := ((s.drop (i + 4)).takeWhile
      (fun c => !isJsWhitespace c && c ≠ '<')).length
    if 1 ≤ run then some (4 + run) else none
  else none

/-- Template of the `www` auto-link replacement for a URL slice starting
at `a` with length `n`:
`$1<a href="http://{clean url}" target="_blank" rel="noopener noreferrer">{clean url}  </a>`
(the leading `$1` slice is prepended by the caller). -/
def wwwTpl (a n : Nat) : List TItem :=
  tpl "<a href=\"http://" ++ [.cseg a n] ++
    tpl "\" target=\"_blank\" rel=\"noopener noreferrer\">" ++
    [.cseg a n] ++ tpl "  </a>"

/-- Matcher of `(\s)(www\.[^\s<]+)` (the `\s` alternative of
`(^|\s)(www\.[^\s<]+)`). -/
def wwwM : Matcher := fun _ s =>
  match s with
  | c :: _ =>
    if isJsWhitespace c then
      (wwwBody s 1).map (fun n => ([TItem.seg 0 1] ++ wwwTpl 1 n, 1 + n))
    else none
  | [] => none

/-- The `^` alternative of the `www` stage at position 0. -/
def wwwTop (s : List Char) : Option (List TItem × Nat) :=
  (wwwBody s 0).map (fun n => (wwwTpl 0 n, n))

/-- `https?://` plus a non-empty `[^\s<]+` run at offset `i`. -/
def httpBody (s : List Char) (i : Nat) : Option Nat :=
  match schemeLen false s i with
  | some sl =>
    let run := ((s.drop (i + sl)).takeWhile
      (fun c => !isJsWhitespace c && c ≠ '<')).length
    if 1 ≤ run then some (sl + run) else none
  | none => none

/-- Template of the bare-URL auto-link replacement. -/
def httpTpl (a n : Nat) : List TItem :=
  tpl "<a href=\"" ++ [.cseg a n] ++
    tpl "\" target=\"_blank\" rel=\"noopener noreferrer\">" ++
    [.cseg a n] ++ tpl "  </a>"

/-- Matcher of the `\s` alternative of `(^|\s)((https?:\/\/)[^\s<]+)`. -/
def httpM : Matcher := fun _ s =>
  match s with
  | c :: _ =>
    if isJsWhitespace c then
      (httpBody s 1).map (fun n => ([TItem.seg 0 1] ++ httpTpl 1 n, 1 + n))
    else none
  | [] => none

/-- The `^` alternative of the bare-URL stage at position 0. -/
def httpTop (s : List Char) : Option (List TItem × Nat) :=
  (httpBody s 0).map (fun n => (httpTpl 0 n, n))

/-- Matcher of `\n` → `<br>`. -/
def brM : Matcher := fun _ s =>
  match s with
  | '\n' :: _ => some (tpl "<br>", 1)
  | _ => none

/-- `renderMarkdown(text)` (`chatbot.util.js` lines 25-48),
polymorphically: the twelve replace stages in source order. -/
def renderMarkdownP (char : α → Char) (mk : Char → α) (s : List α) :
    List α :=
  let clean := cleanLinkP char mk
  let t1 := scanRepl char mk clean mailtoUnwrapM s
  let t2 := scanRepl char mk clean dedupM t1
  let h1 := scanRepl char mk clean (escM '&' "&amp;") t2
  let h2 := scanRepl char mk clean (escM '<' "&lt;") h1
  let h3 := scanRepl char mk clean (escM '>' "&gt;") h2
  let h4 := scanRepl char mk clean (escM '"' "&quot;") h3
  let h5 := scanRepl char mk clean (escM '\'' "&#39;") h4
  let h6 := scanRepl char mk clean (mdLinkM true) h5
  let h7 := scanRepl char mk clean emailLinkM h6
  let h8 := scanRepl char mk clean (boldM '*') h7
  let h9 := scanRepl char mk clean (boldM '_') h8
  let h10 := scanRepl char mk clean (italM '*') h9
  let h11 := scanRepl char mk clean (italM '_') h10
  let h12 := scanRepl char mk clean (mdLinkM false) h11
  let h13 := bulletP char mk true h12
  let h14 := scanReplTop char mk clean wwwTop wwwM h13
  let h15 := scanReplTop char mk clean httpTop httpM h14
  scanRepl char mk clean brM h15

/-- The plain string `renderMarkdown` of the source. -/
def renderMarkdown (text : String) : String :=
  (renderMarkdownP id id text.data).asString

/-- The provenance-tagged run of the formatter on a raw input. -/
def renderMarkdownT (text : String) : List (Char × Origin) :=
  renderMarkdownP Prod.fst (fun c => (c, Origin.gen))
    (text.data.map (fun c => (c, Origin.raw)))

/-! ## The operations of the core, as one step type

Used to state frame and append-only invariants uniformly over every
operation that can touch the session record after the initial load. -/

/-- One operation of the core, with its external inputs (fetch outcomes,
clock values, timer handles, raw input text). -/
inductive CoreOp where
  | opStartChat (resp : FetchResult NewChatBody) (now : Nat)
  | opSendChatMessage (resp : FetchResult SendBody) (userEntry : String) (now : Nat)
  | opSubmit (resps : List (FetchResult SendBody)) (rawInput : String) (now tid : Nat)
  | opBootstrap (resps : List (FetchResult NewChatBody)) (now : Nat)
  | opRender (now : Nat)
  | opStartTyping (now tid : Nat)
  | opStopTyping (now : Nat)

/-- The state transition performed by one core operation. -/
def CoreOp.run : CoreOp → State → State
  | .opStartChat resp now, s => (startChat resp now s).1
  | .opSendChatMessage resp u now, s => (sendChatMessage resp u now s).1
  | .opSubmit resps raw now tid, s => (submitHandler resps raw now tid s).state
  | .opBootstrap resps now, s => (startNewChatIfNeeded resps now s).1
  | .opRender now, s => renderMessages now s
  | .opStartTyping now tid, s => startTypingIndicator now tid s
  | .opStopTyping now, s => stopTypingIndicator now s

/-- A session state with an established chat (used by concrete runs). -/
def readyState : State :=
  { initialState with chat_id := .str "c1", chatStarted := true }

/-- A transport failure of a send as the code experiences it: the fetch
rejected, the body was not JSON, or the parsed body had no object `meta`
field (so that `backend_result.meta.final_message` throws). -/
def sendFails (r : FetchResult SendBody) : Prop :=
  r = .reject ∨ (∃ st, r = .resolve st none) ∨
    ∃ st b, r = .resolve st (some b) ∧ b.meta = none

/-- A send the try block completes: parsed JSON body with an object
`meta`. -/
def sendSucceeds (r : FetchResult SendBody) : Prop :=
  ∃ st b m, r = .resolve st (some b) ∧ b.meta = some m

/-! ## Basic lemmas about the renderer and typing indicator -/

@[simp] theorem renderMessages_chatMessages (now : Nat) (s : State) :
    (renderMessages now s).chatMessages = s.chatMessages := by
  unfold renderMessages; split <;> rfl

@[simp] theorem renderMessages_chat_id (now : Nat) (s : State) :
    (renderMessages now s).chat_id = s.chat_id := by
  unfold renderMessages; split <;> rfl

@[simp] theorem renderMessages_asked_info (now : Nat) (s : State) :
    (renderMessages now s).asked_info = s.asked_info := by
  unfold renderMessages; split <;> rfl

@[simp] theorem renderMessages_data_var (now : Nat) (s : State) :
    (renderMessages now s).data_var = s.data_var := by
  unfold renderMessages; split <;> rfl

@[simp] theorem renderMessages_botIsTyping (now : Nat) (s : State) :
    (renderMessages now s).botIsTyping = s.botIsTyping := by
  unfold renderMessages; split <;> rfl

@[simp] theorem startTypingIndicator_chatMessages (now tid : Nat) (s : State) :
    (startTypingIndicator now tid s).chatMessages = s.chatMessages := by
  simp [startTypingIndicator]

@[simp] theorem startTypingIndicator_chat_id (now tid : Nat) (s : State) :
    (startTypingIndicator now tid s).chat_id = s.chat_id := by
  simp [startTypingIndicator]

@[simp] theorem startTypingIndicator_asked_info (now tid : Nat) (s : State) :
    (startTypingIndicator now tid s).asked_info = s.asked_info := by
  simp [startTypingIndicator]

@[simp] theorem startTypingIndicator_data_var (now tid : Nat) (s : State) :
    (startTypingIndicator now tid s).data_var = s.data_var := by
  simp [startTypingIndicator]

@[simp] theorem stopTypingIndicator_chatMessages (now : Nat) (s : State) :
    (stopTypingIndicator now s).chatMessages = s.chatMessages := by
  simp [stopTypingIndicator]

@[simp] theorem stopTypingIndicator_chat_id (now : Nat) (s : State) :
    (stopTypingIndicator now s).chat_id = s.chat_id := by
  simp [stopTypingIndicator]

@[simp] theorem stopTypingIndicator_asked_info (now : Nat) (s : State) :
    (stopTypingIndicator now s).asked_info = s.asked_info := by
  simp [stopTypingIndicator]

@[simp] theorem stopTypingIndicator_data_var (now : Nat) (s : State) :
    (stopTypingIndicator now s).data_var = s.data_var := by
  simp [stopTypingIndicator]

@[simp] theorem stopTypingIndicator_botIsTyping (now : Nat) (s : State) :
    (stopTypingIndicator now s).botIsTyping = false := by
  simp [stopTypingIndicator]

/-! ## Lemmas about the transport client -/

@[simp] theorem sendCatch_chatMessages (now : Nat) (s : State) :
    (sendCatch now s).chatMessages =
      s.chatMessages ++ [⟨"bot", .str sendApology⟩] := by
  simp [sendCatch]

@[simp] theorem sendCatch_chat_id (now : Nat) (s : State) :
    (sendCatch now s).chat_id = s.chat_id := by
  simp [sendCatch]

@[simp] theorem sendCatch_asked_info (now : Nat) (s : State) :
    (sendCatch now s).asked_info = s.asked_info := by
  simp [sendCatch]

@[simp] theorem sendCatch_data_var (now : Nat) (s : State) :
    (sendCatch now s).data_var = s.data_var := by
  simp [sendCatch]

/-- On any transport failure, `sendChatMessage` runs exactly its catch
block and reports `false`. -/
theorem sendChatMessage_of_fails {r : FetchResult SendBody}
    (h : sendFails r) (u : String) (now : Nat) (s : State) :
    sendChatMessage r u now s = (sendCatch now s, false, sendRequestBody s u) := by
  rcases h with h | ⟨st, h⟩ | ⟨st, b, h, hb⟩
  · subst h; rfl
  · subst h; rfl
  · subst h; simp [sendChatMessage, hb]

/-- On a completed send, `sendChatMessage` reports `true`. -/
theorem sendChatMessage_of_succeeds {r : FetchResult SendBody}
    (h : sendSucceeds r) (u : String) (now : Nat) (s : State) :
    (sendChatMessage r u now s).2.1 = true := by
  rcases h with ⟨st, b, m, h, hb⟩; subst h; simp [sendChatMessage, hb]

@[simp] theorem sendChatMessage_request (r : FetchResult SendBody)
    (u : String) (now : Nat) (s : State) :
    (sendChatMessage r u now s).2.2 = sendRequestBody s u := by
  unfold sendChatMessage
  rcases r with _ | ⟨st, _ | b⟩ <;> simp
  cases b.meta <;> simp

/-! ## Claim C2 (corrected)

The spec claims every non-2xx status is treated as a transport failure.
The code never reads the response status: `startChat` adopts the fields
of a status-500 JSON body as a success.  What is true: fetch rejection,
a non-JSON body, and (for `sendChatMessage`) a body without an object
`meta` all take the catch path (return `false`, append the
connectivity-apology bot message), and the result never depends on the
status code. -/

/-- Claim C2, counterexample: a status-500 response whose body is valid
JSON makes `startChat` return `true` and adopt the body's `id` as
`chat_id` — the non-2xx status is not treated as a transport failure. -/
theorem claim_C2_counterexample :
    (startChat (.resolve 500 (some ⟨.str "id1", .blob 0, .undef⟩)) 0 initialState).2
        = true ∧
    (startChat (.resolve 500 (some ⟨.str "id1", .blob 0, .undef⟩)) 0 initialState).1.chat_id
        = .str "id1" := by
  constructor <;> rfl

/-- Claim C2 as amended: a transport operation takes the failure path
(returns `false` and appends its connectivity-apology bot message) exactly
on fetch rejection, non-JSON body, or — for `sendChatMessage` — a body
without an object `meta`; and the HTTP status code never influences the
result of either operation. -/
theorem claim_C2 :
    (∀ (resp : FetchResult NewChatBody) (now : Nat) (s : State),
       (resp = .reject ∨ ∃ st, resp = .resolve st none) →
       (startChat resp now s).2 = false ∧
       (startChat resp now s).1.chatMessages =
         s.chatMessages ++ [⟨"bot", .str startChatApology⟩]) ∧
    (∀ (resp : FetchResult SendBody) (u : String) (now : Nat) (s : State),
       sendFails resp →
       (sendChatMessage resp u now s).2.1 = false ∧
       (sendChatMessage resp u now s).1.chatMessages =
         s.chatMessages ++ [⟨"bot", .str sendApology⟩]) ∧
    (∀ (st st' : Nat) (p : Option NewChatBody) (now : Nat) (s : State),
       startChat (.resolve st p) now s = startChat (.resolve st' p) now s) ∧
    (∀ (st st' : Nat) (p : Option SendBody) (u : String) (now : Nat) (s : State),
       sendChatMessage (.resolve st p) u now s
         = sendChatMessage (.resolve st' p) u now s) := by
  refine ⟨?_, ?_, ?_, ?_⟩
  · rintro resp now s (h | ⟨st, h⟩) <;> subst h <;> simp [startChat]
  · intro resp u now s h
    rw [sendChatMessage_of_fails h]
    simp
  · intro st st' p now s
    cases p <;> rfl
  · intro st st' p u now s
    cases p <;> rfl

/-- Witness for C2: concrete failing and status-independent instances. -/
theorem claim_C2_witness :
    ((startChat .reject 0 initialState).2 = false ∧
     (startChat .reject 0 initialState).1.chatMessages =
       initialState.chatMessages ++ [⟨"bot", .str startChatApology⟩]) ∧
    ((sendChatMessage .reject "Hallo" 0 readyState).2.1 = false ∧
     (sendChatMessage .reject "Hallo" 0 readyState).1.chatMessages =
       readyState.chatMessages ++ [⟨"bot", .str sendApology⟩]) :=
  ⟨claim_C2.1 .reject 0 initialState (Or.inl rfl),
   claim_C2.2.1 .reject "Hallo" 0 readyState (Or.inl rfl)⟩

/-! ## Claim C6 (confirmed)

Submitting non-empty text with no established `chat_id` appends the user
message and the fixed "Chatverbindung nicht hergestellt." bot message,
stops the typing indicator, makes zero send attempts and posts no request;
the run does not depend on the network oracle at all. -/

/-- With input that trims non-empty and a falsy `chat_id`, the submit
handler takes exactly the guard path: both messages appended, typing
stopped, timer handle stored, no send attempted. -/
theorem submitHandler_noChat (resps : List (FetchResult SendBody))
    (raw : String) (now tid : Nat) (s : State)
    (hid : s.chat_id.truthy = false) (hraw : (jsTrimStr raw).isEmpty = false) :
    submitHandler resps raw now tid s =
      SubmitResult.mk
        { s with
          chatMessages := s.chatMessages ++
            [⟨"user", .str (jsTrimStr raw)⟩, ⟨"bot", .str notConnectedMsg⟩],
          botIsTyping := false, waitStart := none, fallbackTimer := some tid }
        0 false [] := by
  obtain ⟨cid, ai, dv, cs, pa, fm, msgs, bit, ws, ft⟩ := s
  cases bit <;>
    simp [submitHandler, hraw, hid, startTypingIndicator,
      stopTypingIndicator, renderMessages]

/-- Claim C6: with `chat_id` still `null`, a non-empty submit appends only
the user message and the "not connected" bot message, ends with the typing
indicator stopped, makes zero network calls (no attempt, no request body,
oracle-independent), and performs no retries. -/
theorem claim_C6 (resps : List (FetchResult SendBody)) (raw : String)
    (now tid : Nat) (s : State)
    (hid : s.chat_id = JVal.null) (hraw : (jsTrimStr raw).isEmpty = false) :
    (submitHandler resps raw now tid s).state.chatMessages =
      s.chatMessages ++ [⟨"user", .str (jsTrimStr raw)⟩, ⟨"bot", .str notConnectedMsg⟩] ∧
    (submitHandler resps raw now tid s).attempts = 0 ∧
    (submitHandler resps raw now tid s).requests = [] ∧
    (submitHandler resps raw now tid s).state.botIsTyping = false ∧
    submitHandler resps raw now tid s = submitHandler [] raw now tid s := by
  have hid' : s.chat_id.truthy = false := by rw [hid]; rfl
  rw [submitHandler_noChat resps raw now tid s hid' hraw,
    submitHandler_noChat [] raw now tid s hid' hraw]
  exact ⟨rfl, rfl, rfl, rfl, rfl⟩

/-- Witness for C6 at a concrete fresh session and input. -/
theorem claim_C6_witness :
    (submitHandler [.reject] "Hallo" 0 0 initialState).state.chatMessages =
      initialState.chatMessages ++
        [⟨"user", .str (jsTrimStr "Hallo")⟩, ⟨"bot", .str notConnectedMsg⟩] ∧
    (submitHandler [.reject] "Hallo" 0 0 initialState).attempts = 0 ∧
    (submitHandler [.reject] "Hallo" 0 0 initialState).requests = [] ∧
    (submitHandler [.reject] "Hallo" 0 0 initialState).state.botIsTyping = false ∧
    submitHandler [.reject] "Hallo" 0 0 initialState
      = submitHandler [] "Hallo" 0 0 initialState :=
  claim_C6 [.reject] "Hallo" 0 0 initialState rfl (by decide)

/-! ## Claim C7 (confirmed)

`load` immediately after `save` restores every field (the in-memory
record at that moment is the one that was saved); when the stored data
lacks the `botIsTyping` key, `load` recomputes it as "message list is
empty". -/

theorem jsonField_getD (v : JVal) : (jsonField v).getD v = v := by
  unfold jsonField; split <;> rfl

/-- Claim C7: `loadChatbotSession` right after `saveChatbotSession`
restores every field of the session exactly; and for stored data without
a `botIsTyping` key, the loaded `botIsTyping` is true iff the loaded
message list is empty. -/
theorem claim_C7 :
    (∀ s : State, loadChatbotSession (saveChatbotSession s) s = s) ∧
    (∀ (saved : StoredState) (s : State), saved.botIsTyping = none →
      ((loadChatbotSession saved s).botIsTyping = true ↔
        (loadChatbotSession saved s).chatMessages = [])) := by
  constructor
  · intro s
    simp [loadChatbotSession, saveChatbotSession, jsonField_getD]
  · intro saved s h
    simp [loadChatbotSession, h, List.length_eq_zero]

/-- Witness for C7: a stored object without `botIsTyping` and a non-empty
stored message list loads with `botIsTyping = false`. -/
theorem claim_C7_witness :
    (loadChatbotSession
        ⟨some (.str "c1"), none, none, some true, none, none,
         some [⟨"bot", .str "Hi"⟩], none, none, none⟩ initialState).botIsTyping = true ↔
    (loadChatbotSession
        ⟨some (.str "c1"), none, none, some true, none, none,
         some [⟨"bot", .str "Hi"⟩], none, none, none⟩ initialState).chatMessages = [] :=
  claim_C7.2 _ initialState rfl


/-! ## Claim C5 (corrected)

The retry counts and end states are as the spec says, but the message
count is not: each failed `sendChatMessage` appends its own
connectivity-apology bot message before the handler appends the final
retry-apology, so an all-fail run appends four bot messages, not one. -/

/-- All three send attempts fail: the handler makes exactly 3 attempts,
is not delivered, appends one connectivity apology per failed attempt
plus the final retry apology, and posts three identical request bodies. -/
theorem submitHandler_allFail {r1 r2 r3 : FetchResult SendBody}
    (h1 : sendFails r1) (h2 : sendFails r2) (h3 : sendFails r3)
    (raw : String) (now tid : Nat) (s : State)
    (hid : s.chat_id.truthy = true) (hraw : (jsTrimStr raw).isEmpty = false) :
    submitHandler [r1, r2, r3] raw now tid s =
      SubmitResult.mk
        { s with
          chatMessages := s.chatMessages ++
            [⟨"user", .str (jsTrimStr raw)⟩, ⟨"bot", .str sendApology⟩,
             ⟨"bot", .str sendApology⟩, ⟨"bot", .str sendApology⟩,
             ⟨"bot", .str giveUpApology⟩],
          botIsTyping := false, waitStart := none, fallbackTimer := some tid }
        3 false
        [⟨s.asked_info, s.data_var, jsTrimStr raw⟩,
         ⟨s.asked_info, s.data_var, jsTrimStr raw⟩,
         ⟨s.asked_info, s.data_var, jsTrimStr raw⟩] := by
  obtain ⟨cid, ai, dv, cs, pa, fm, msgs, bit, ws, ft⟩ := s
  simp only [submitHandler, List.getD_cons_zero, List.getD_cons_succ]
  rw [sendChatMessage_of_fails h1, sendChatMessage_of_fails h2,
    sendChatMessage_of_fails h3]
  cases bit <;>
    simp [hid, hraw, startTypingIndicator, stopTypingIndicator,
      renderMessages, sendCatch, sendRequestBody]

/-- The first two attempts fail and the third completes: 3 attempts,
delivered. -/
theorem submitHandler_failFailOk {r1 r2 r3 : FetchResult SendBody}
    (h1 : sendFails r1) (h2 : sendFails r2) (h3 : sendSucceeds r3)
    (raw : String) (now tid : Nat) (s : State)
    (hid : s.chat_id.truthy = true) (hraw : (jsTrimStr raw).isEmpty = false) :
    (submitHandler [r1, r2, r3] raw now tid s).attempts = 3 ∧
    (submitHandler [r1, r2, r3] raw now tid s).delivered = true := by
  obtain ⟨st, b, m, h3e, hb⟩ := h3
  subst h3e
  obtain ⟨cid, ai, dv, cs, pa, fm, msgs, bit, ws, ft⟩ := s
  simp only [submitHandler, List.getD_cons_zero, List.getD_cons_succ]
  rw [sendChatMessage_of_fails h1, sendChatMessage_of_fails h2]
  cases bit <;>
    simp [hid, hraw, sendChatMessage, hb, startTypingIndicator,
      stopTypingIndicator, renderMessages, sendCatch]

/-- Claim C5, counterexample: with an always-failing transport the run
does end after 3 attempts, but it appends four apology bot messages (the
three connectivity apologies and the final retry apology), not exactly
one. -/
theorem claim_C5_counterexample :
    (submitHandler [.reject, .reject, .reject] "Hallo" 0 0 readyState).attempts = 3 ∧
    ((submitHandler [.reject, .reject, .reject] "Hallo" 0 0 readyState).state.chatMessages.filter
        (fun m => m.sender == "bot")).length = 4 ∧
    (submitHandler [.reject, .reject, .reject] "Hallo" 0 0 readyState).state.chatMessages =
      [⟨"user", .str "Hallo"⟩, ⟨"bot", .str sendApology⟩, ⟨"bot", .str sendApology⟩,
       ⟨"bot", .str sendApology⟩, ⟨"bot", .str giveUpApology⟩] := by
  set_option maxRecDepth 10000 in decide

/-- Claim C5 as amended: with a transport that fails exactly twice and
then succeeds, the flow ends delivered after exactly 3 attempts; with a
transport that always fails, it ends undelivered after exactly 3
attempts, each failed attempt appending one connectivity-apology bot
message and the handler then appending exactly one final retry-apology
(four bot messages in total). -/
theorem claim_C5 (r1 r2 r3 : FetchResult SendBody) (raw : String)
    (now tid : Nat) (s : State)
    (hid : s.chat_id.truthy = true) (hraw : (jsTrimStr raw).isEmpty = false) :
    (sendFails r1 → sendFails r2 → sendSucceeds r3 →
      (submitHandler [r1, r2, r3] raw now tid s).attempts = 3 ∧
      (submitHandler [r1, r2, r3] raw now tid s).delivered = true) ∧
    (sendFails r1 → sendFails r2 → sendFails r3 →
      (submitHandler [r1, r2, r3] raw now tid s).attempts = 3 ∧
      (submitHandler [r1, r2, r3] raw now tid s).delivered = false ∧
      (submitHandler [r1, r2, r3] raw now tid s).state.chatMessages =
        s.chatMessages ++
          [⟨"user", .str (jsTrimStr raw)⟩, ⟨"bot", .str sendApology⟩,
           ⟨"bot", .str sendApology⟩, ⟨"bot", .str sendApology⟩,
           ⟨"bot", .str giveUpApology⟩]) := by
  constructor
  · intro h1 h2 h3
    exact submitHandler_failFailOk h1 h2 h3 raw now tid s hid hraw
  · intro h1 h2 h3
    rw [submitHandler_allFail h1 h2 h3 raw now tid s hid hraw]
    exact ⟨rfl, rfl, rfl⟩

/-- Witness for C5: both transport scenarios at concrete inputs. -/
theorem claim_C5_witness :
    ((submitHandler [.reject, .reject,
        .resolve 200 (some ⟨.str "c2", .blob 1, .str "Hi", some ⟨.undef⟩⟩)]
        "Hallo" 0 0 readyState).attempts = 3 ∧
     (submitHandler [.reject, .reject,
        .resolve 200 (some ⟨.str "c2", .blob 1, .str "Hi", some ⟨.undef⟩⟩)]
        "Hallo" 0 0 readyState).delivered = true) ∧
    (submitHandler [.reject, .reject, .reject] "Hallo" 0 0 readyState).attempts = 3 ∧
    (submitHandler [.reject, .reject, .reject] "Hallo" 0 0 readyState).delivered = false :=
  ⟨(claim_C5 _ _ _ "Hallo" 0 0 readyState rfl rfl).1
      (Or.inl rfl) (Or.inl rfl)
      ⟨200, ⟨.str "c2", .blob 1, .str "Hi", some ⟨.undef⟩⟩, ⟨.undef⟩, rfl, rfl⟩,
   ((claim_C5 _ _ _ "Hallo" 0 0 readyState rfl rfl).2
      (Or.inl rfl) (Or.inl rfl) (Or.inl rfl)).1,
   ((claim_C5 _ _ _ "Hallo" 0 0 readyState rfl rfl).2
      (Or.inl rfl) (Or.inl rfl) (Or.inl rfl)).2.1⟩


/-! ## Append-only message lemmas (Claim C9) -/

theorem startChat_msgs (resp : FetchResult NewChatBody) (now : Nat) (s : State) :
    ∃ t, (startChat resp now s).1.chatMessages = s.chatMessages ++ t := by
  rcases resp with _ | ⟨st, _ | b⟩
  · exact ⟨[⟨"bot", .str startChatApology⟩], by simp [startChat]⟩
  · exact ⟨[⟨"bot", .str startChatApology⟩], by simp [startChat]⟩
  · by_cases h : b.message.truthy
    · exact ⟨[⟨"bot", b.message⟩], by simp [startChat, h]⟩
    · exact ⟨[], by simp [startChat, h]⟩

theorem sendChatMessage_msgs (resp : FetchResult SendBody) (u : String)
    (now : Nat) (s : State) :
    ∃ t, (sendChatMessage resp u now s).1.chatMessages = s.chatMessages ++ t := by
  rcases resp with _ | ⟨st, _ | b⟩
  · exact ⟨[⟨"bot", .str sendApology⟩], by simp [sendChatMessage]⟩
  · exact ⟨[⟨"bot", .str sendApology⟩], by simp [sendChatMessage]⟩
  · rcases hb : b.meta with _ | m
    · exact ⟨[⟨"bot", .str sendApology⟩], by simp [sendChatMessage, hb]⟩
    · exact ⟨[⟨"bot", b.message⟩], by simp [sendChatMessage, hb]⟩

/-- Chaining append-only through one more send. -/
theorem sendChatMessage_msgs_chain {x y : State}
    (h : ∃ t, x.chatMessages = y.chatMessages ++ t)
    (resp : FetchResult SendBody) (u : String) (now : Nat) :
    ∃ t, (sendChatMessage resp u now x).1.chatMessages
      = y.chatMessages ++ t := by
  obtain ⟨t1, h1⟩ := h
  obtain ⟨t2, h2⟩ := sendChatMessage_msgs resp u now x
  exact ⟨t1 ++ t2, by rw [h2, h1, List.append_assoc]⟩

/-- Chaining append-only through one more `startChat`. -/
theorem startChat_msgs_chain {x y : State}
    (h : ∃ t, x.chatMessages = y.chatMessages ++ t)
    (resp : FetchResult NewChatBody) (now : Nat) :
    ∃ t, (startChat resp now x).1.chatMessages = y.chatMessages ++ t := by
  obtain ⟨t1, h1⟩ := h
  obtain ⟨t2, h2⟩ := startChat_msgs resp now x
  exact ⟨t1 ++ t2, by rw [h2, h1, List.append_assoc]⟩

theorem submitHandler_msgs (resps : List (FetchResult SendBody)) (raw : String)
    (now tid : Nat) (s : State) :
    ∃ t, (submitHandler resps raw now tid s).state.chatMessages
      = s.chatMessages ++ t := by
  simp only [submitHandler]
  split
  · exact ⟨[], (List.append_nil _).symm⟩
  · split
    · exact ⟨[⟨"user", .str (jsTrimStr raw)⟩, ⟨"bot", .str notConnectedMsg⟩],
        by simp⟩
    · have c1 := sendChatMessage_msgs_chain (y := s)
        (x := startTypingIndicator now tid (renderMessages now
          { s with chatMessages :=
              s.chatMessages ++ [⟨"user", .str (jsTrimStr raw)⟩] }))
        ⟨[⟨"user", .str (jsTrimStr raw)⟩], by simp⟩
        (resps.getD 0 .reject) (jsTrimStr raw) now
      have c2 := sendChatMessage_msgs_chain c1 (resps.getD 1 .reject)
        (jsTrimStr raw) now
      have c3 := sendChatMessage_msgs_chain c2 (resps.getD 2 .reject)
        (jsTrimStr raw) now
      split
      · exact c1
      · split
        · exact c2
        · split
          · exact c3
          · obtain ⟨t3, h3⟩ := c3
            refine ⟨t3 ++ [⟨"bot", .str giveUpApology⟩], ?_⟩
            rw [renderMessages_chatMessages, h3, List.append_assoc]

theorem startNewChatIfNeeded_msgs (resps : List (FetchResult NewChatBody))
    (now : Nat) (s : State) :
    ∃ t, (startNewChatIfNeeded resps now s).1.chatMessages
      = s.chatMessages ++ t := by
  simp only [startNewChatIfNeeded]
  split
  · exact ⟨[], (List.append_nil _).symm⟩
  · have c1 := startChat_msgs_chain (y := s) (x := renderMessages now s)
      ⟨[], by simp⟩ (resps.getD 0 .reject) now
    have c2 := startChat_msgs_chain c1 (resps.getD 1 .reject) now
    have c3 := startChat_msgs_chain c2 (resps.getD 2 .reject) now
    split
    · exact c1
    · split
      · exact c2
      · split
        · exact c3
        · obtain ⟨t3, h3⟩ := c3
          refine ⟨t3 ++ [⟨"bot", .str reloadApology⟩], ?_⟩
          rw [renderMessages_chatMessages, h3, List.append_assoc]

/-! ## Claim C9 (confirmed)

Every core operation only ever appends to `chatMessages`. -/

/-- Claim C9: for every operation of the core and every state, the
message list before the operation is a prefix of the message list after
it — messages are only appended, never removed or reordered. -/
theorem claim_C9 (op : CoreOp) (s : State) :
    ∃ t, (op.run s).chatMessages = s.chatMessages ++ t := by
  cases op with
  | opStartChat resp now => exact startChat_msgs resp now s
  | opSendChatMessage resp u now => exact sendChatMessage_msgs resp u now s
  | opSubmit resps raw now tid => exact submitHandler_msgs resps raw now tid s
  | opBootstrap resps now => exact startNewChatIfNeeded_msgs resps now s
  | opRender now => exact ⟨[], by simp [CoreOp.run]⟩
  | opStartTyping now tid => exact ⟨[], by simp [CoreOp.run]⟩
  | opStopTyping now => exact ⟨[], by simp [CoreOp.run]⟩

/-! ## Claim C10 (confirmed)

No core operation assigns `asked_info`; every request body posted by
`sendChatMessage` carries the current (unchanged) value. -/

@[simp] theorem startChat_asked_info (resp : FetchResult NewChatBody)
    (now : Nat) (s : State) :
    (startChat resp now s).1.asked_info = s.asked_info := by
  rcases resp with _ | ⟨st, _ | b⟩ <;> simp [startChat]
  by_cases h : b.message.truthy <;> simp [h]

@[simp] theorem sendChatMessage_asked_info (resp : FetchResult SendBody)
    (u : String) (now : Nat) (s : State) :
    (sendChatMessage resp u now s).1.asked_info = s.asked_info := by
  rcases resp with _ | ⟨st, _ | b⟩ <;> simp [sendChatMessage]
  rcases hb : b.meta with _ | m <;> simp [hb]

@[simp] theorem submitHandler_asked_info (resps : List (FetchResult SendBody))
    (raw : String) (now tid : Nat) (s : State) :
    (submitHandler resps raw now tid s).state.asked_info = s.asked_info := by
  simp only [submitHandler]
  split
  · rfl
  · split
    · simp
    · split
      · simp
      · split
        · simp
        · split
          · simp
          · simp

@[simp] theorem startNewChatIfNeeded_asked_info
    (resps : List (FetchResult NewChatBody)) (now : Nat) (s : State) :
    (startNewChatIfNeeded resps now s).1.asked_info = s.asked_info := by
  simp only [startNewChatIfNeeded]
  split
  · rfl
  · split
    · simp
    · split
      · simp
      · split
        · simp
        · simp

theorem CoreOp_run_asked_info (op : CoreOp) (s : State) :
    (op.run s).asked_info = s.asked_info := by
  cases op <;> simp [CoreOp.run]

/-- Claim C10: `asked_info` is never assigned by any core operation (nor
by any sequence of them), and every request body posted by
`sendChatMessage` — including each request of a full submit run — carries
exactly the state's `asked_info`. -/
theorem claim_C10 :
    (∀ (op : CoreOp) (s : State), (op.run s).asked_info = s.asked_info) ∧
    (∀ (ops : List CoreOp) (s : State),
      (ops.foldl (fun st op => op.run st) s).asked_info = s.asked_info) ∧
    (∀ (resp : FetchResult SendBody) (u : String) (now : Nat) (s : State),
      (sendChatMessage resp u now s).2.2.asked_info = s.asked_info) ∧
    (∀ (resps : List (FetchResult SendBody)) (raw : String) (now tid : Nat)
       (s : State), ∀ r ∈ (submitHandler resps raw now tid s).requests,
       r.asked_info = s.asked_info) := by
  refine ⟨CoreOp_run_asked_info, ?_, ?_, ?_⟩
  · intro ops
    induction ops with
    | nil => intro s; rfl
    | cons op ops ih =>
      intro s
      simpa [CoreOp_run_asked_info op s] using ih (op.run s)
  · intro resp u now s
    simp [sendRequestBody]
  · intro resps raw now tid s r hr
    revert hr
    simp only [submitHandler]
    split
    · simp
    · split
      · simp
      · split
        · intro hr
          simp only [List.mem_singleton] at hr
          subst hr
          simp [sendRequestBody]
        · split
          · intro hr
            simp only [List.mem_cons, List.not_mem_nil, or_false] at hr
            rcases hr with hr | hr <;> subst hr <;> simp [sendRequestBody]
          · split
            · intro hr
              simp only [List.mem_cons, List.not_mem_nil, or_false] at hr
              rcases hr with hr | hr | hr <;> subst hr <;> simp [sendRequestBody]
            · intro hr
              simp only [List.mem_cons, List.not_mem_nil, or_false] at hr
              rcases hr with hr | hr | hr <;> subst hr <;> simp [sendRequestBody]

/-- Witness for C10: the first request of a concrete submit run carries
the session's `asked_info`. -/
theorem claim_C10_witness :
    ∀ r ∈ (submitHandler [.reject] "Hallo" 0 0 readyState).requests,
      r.asked_info = readyState.asked_info := by
  intro r hr
  exact claim_C10.2.2.2 [.reject] "Hallo" 0 0 readyState r hr


/-! ## Lemmas about `lastIndexOf` and the splitter -/

theorem lastIndexOf_cases (hay needle : List Char) :
    lastIndexOf hay needle = -1 ∨
    ∃ i : Nat, lastIndexOf hay needle = (i : Int) ∧ i < hay.length ∧
      strStarts needle (hay.drop i) = true := by
  unfold lastIndexOf
  cases hm : ((List.range hay.length).filter
      (fun i => strStarts needle (hay.drop i))).max? with
  | none => exact Or.inl rfl
  | some j =>
    have hmem := List.max?_mem (fun x y => max_choice x y) hm
    have hj := List.mem_filter.mp hmem
    exact Or.inr ⟨j, rfl, List.mem_range.mp hj.1, hj.2⟩

theorem strStarts_one {c : Char} {l : List Char}
    (h : strStarts [c] l = true) : ∃ rest, l = c :: rest := by
  unfold strStarts at h
  cases l with
  | nil => simp at h
  | cons a rest =>
    refine ⟨rest, ?_⟩
    have : a = c := by simpa [List.take] using h
    rw [this]

theorem strStarts_two {c d : Char} {l : List Char}
    (h : strStarts [c, d] l = true) : ∃ rest, l = c :: d :: rest := by
  unfold strStarts at h
  match l with
  | [] => simp at h
  | [a] => simp [List.take] at h
  | a :: b :: rest =>
    refine ⟨rest, ?_⟩
    have hab : a = c ∧ b = d := by simpa [List.take] using h
    rw [hab.1, hab.2]

/-- Every block pushed by the chunking loop has at most `maxLen`
characters. -/
theorem chunkLoopF_length_le (text : List Char) (maxLen : Nat) :
    ∀ (fuel cursor : Nat), ∀ p ∈ chunkLoopF text maxLen fuel cursor,
      p.length ≤ maxLen := by
  intro fuel
  induction fuel with
  | zero => intro cursor p hp; simp [chunkLoopF] at hp
  | succ fuel ih =>
    intro cursor p hp
    simp only [chunkLoopF] at hp
    split at hp
    case isFalse hcur => simp at hp
    case isTrue hcur =>
      have hsnip : (jsSlice text cursor (min text.length (cursor + maxLen))).length
          ≤ maxLen := by
        rw [jsSlice, List.length_take, List.length_drop]
        omega
      split at hp
      case isTrue hsep =>
        rcases List.mem_cons.mp hp with rfl | hp2
        · have hle := List.length_take_le
            ((min text.length (cursor + maxLen)) -
              -- the cut index, as used by `jsSlice`
              cursor) (text.drop cursor)
          have hch := max_choice
            (lastIndexOf (jsSlice text cursor (min text.length (cursor + maxLen))) ['\n'])
            (lastIndexOf (jsSlice text cursor (min text.length (cursor + maxLen))) ['.', ' '])
          rcases lastIndexOf_cases
              (jsSlice text cursor (min text.length (cursor + maxLen))) ['\n']
            with h1 | ⟨i, h1, hi, _⟩ <;>
          rcases lastIndexOf_cases
              (jsSlice text cursor (min text.length (cursor + maxLen))) ['.', ' ']
            with h2 | ⟨j, h2, hj, _⟩ <;>
          · rw [jsSlice, List.length_take, List.length_drop]
            rw [h1, h2] at hch hsep
            omega
        · exact ih _ p hp2
      case isFalse hsep =>
        rcases List.mem_cons.mp hp with rfl | hp2
        · exact hsnip
        · exact ih _ p hp2

/-- The paragraph split never returns an empty list of parts. -/
theorem paragraphSplit_ne_nil (acc l : List Char) : paragraphSplit acc l ≠ [] := by
  induction acc, l using paragraphSplit.induct with
  | case1 acc c rest h ih => simp [paragraphSplit, h]
  | case2 acc c rest h ih => simpa [paragraphSplit, h] using ih
  | case3 acc c rest h ih => simp_all [paragraphSplit]
  | case4 acc => simp [paragraphSplit]

/-- If the paragraph split produced a single part, that part is the whole
input (prefixed by the accumulator). -/
theorem paragraphSplit_length_one (acc l : List Char)
    (h : (paragraphSplit acc l).length = 1) :
    paragraphSplit acc l = [acc.reverse ++ l] := by
  induction acc, l using paragraphSplit.induct with
  | case1 acc c rest hup ih =>
    exfalso
    rw [paragraphSplit, if_pos hup] at h
    have h2 := paragraphSplit_ne_nil [] (c :: rest)
    simp only [List.length_cons, Nat.add_left_eq_self, List.length_eq_zero] at h
    exact h2 h
  | case2 acc c rest hup ih =>
    rw [paragraphSplit, if_neg hup] at h ⊢
    rw [ih h]
    simp
  | case3 acc c rest hne ih =>
    have he : paragraphSplit acc (c :: rest) = paragraphSplit (c :: acc) rest := by
      simp_all [paragraphSplit]
    rw [he] at h ⊢
    rw [ih h]
    simp
  | case4 acc => simp [paragraphSplit]


/-! ## Claim C3 (corrected)

The spec's "every block ≤ maxLen" only holds on the fixed-window chunking
path; the paragraph-split path never looks at `maxLen`. -/

/-- Claim C3, counterexample: when the double-newline-before-uppercase
split yields several parts, the parts are returned as blocks without any
length check — here a 4-character block for `maxLen = 2` (and `2 ≥ 1`). -/
theorem claim_C3_counterexample :
    splitIntoSubblocks "aaaa\n\nBcc" 2 = ["aaaa", "Bcc"] ∧
    ("aaaa" : String).length = 4 ∧ 1 ≤ 2 := by
  refine ⟨by decide, rfl, by decide⟩

/-- Claim C3 as amended: for every `maxLen ≥ 1` and every text on which
the paragraph split yields a single part (so that the fixed-window
chunking path decides the blocks), every returned block has length at
most `maxLen`; blocks from a multi-part paragraph split may exceed
`maxLen`. -/
theorem claim_C3 (text : String) (maxLen : Nat) (hm : 1 ≤ maxLen)
    (hp : (paragraphSplit [] text.data).length = 1) :
    ∀ b ∈ splitIntoSubblocks text maxLen, b.length ≤ maxLen := by
  intro b hb
  simp only [splitIntoSubblocks] at hb
  by_cases hlen : text.data.length > maxLen
  · rw [if_pos (by simp [hp]; exact hlen)] at hb
    obtain ⟨p, hpf, rfl⟩ := List.mem_map.mp hb
    have hmem := (List.mem_filter.mp hpf).1
    exact chunkLoopF_length_le text.data maxLen text.data.length 0 p hmem
  · rw [if_neg (by simp [hp]; exact not_lt.mp hlen)] at hb
    rw [paragraphSplit_length_one [] text.data hp] at hb
    simp only [List.reverse_nil, List.nil_append] at hb
    obtain ⟨p, hpf, rfl⟩ := List.mem_map.mp hb
    have hmem := (List.mem_filter.mp hpf).1
    have hpt : p = text.data := List.mem_singleton.mp hmem
    subst hpt
    show text.data.length ≤ maxLen
    omega

/-- Witness for C3 at a concrete chunked text. -/
theorem claim_C3_witness :
    ("aa" : String) ∈ splitIntoSubblocks "aaaa" 2 ∧
    ("aa" : String).length ≤ 2 :=
  ⟨by decide, claim_C3 "aaaa" 2 (by decide) (by decide) "aa" (by decide)⟩

/-! ## Reconstruction lemmas for Claim C8 -/

theorem take_eq_cons {l : List Char} {n : Nat} {c : Char} {r : List Char}
    (h : l.take n = c :: r) : ∃ t, l = c :: t := by
  cases l with
  | nil => simp at h
  | cons a t =>
    cases n with
    | zero => simp at h
    | succ m =>
      refine ⟨t, ?_⟩
      simp only [List.take_succ_cons, List.cons.injEq] at h
      rw [h.1]

/-- Characterising a positive separator position of the chunking loop:
its index is in range and the window there starts with the newline or the
period of a ". " pair. -/
theorem sep_spec {snip : List Char}
    (hsep : max (lastIndexOf snip ['\n']) (lastIndexOf snip ['.', ' ']) > -1) :
    ∃ k : Nat,
      max (lastIndexOf snip ['\n']) (lastIndexOf snip ['.', ' ']) = (k : Int) ∧
      k < snip.length ∧
      ((∃ r, snip.drop k = '\n' :: r) ∨ (∃ r, snip.drop k = '.' :: r)) := by
  have hch := max_choice (lastIndexOf snip ['\n']) (lastIndexOf snip ['.', ' '])
  rcases lastIndexOf_cases snip ['\n'] with h1 | ⟨i, h1, hi, hs1⟩ <;>
    rcases lastIndexOf_cases snip ['.', ' '] with h2 | ⟨j, h2, hj, hs2⟩
  · rcases hch with hc | hc <;> rw [hc] at hsep <;> omega
  · refine ⟨j, ?_, hj, Or.inr ?_⟩
    · rcases hch with hc | hc
      · rw [hc, h1] at hsep ⊢; omega
      · rw [hc, h2]
    · obtain ⟨r, hr⟩ := strStarts_two hs2
      exact ⟨' ' :: r, hr⟩
  · refine ⟨i, ?_, hi, Or.inl ?_⟩
    · rcases hch with hc | hc
      · rw [hc, h1]
      · rw [hc, h2] at hsep ⊢; omega
    · exact strStarts_one hs1
  · rcases hch with hc | hc
    · refine ⟨i, by rw [hc, h1], hi, Or.inl (strStarts_one hs1)⟩
    · refine ⟨j, by rw [hc, h2], hj, Or.inr ?_⟩
      obtain ⟨r, hr⟩ := strStarts_two hs2
      exact ⟨' ' :: r, hr⟩

/-- The window of the chunking loop starting with `ch` at index `k` means
the rest of the text does as well. -/
theorem drop_head_of_snip {text : List Char} {cursor next k : Nat} {ch : Char}
    {r : List Char}
    (hnext : next ≤ text.length)
    (hk : k < (jsSlice text cursor next).length)
    (hr : (jsSlice text cursor next).drop k = ch :: r) :
    (text.drop cursor).drop k = ch :: (text.drop cursor).drop (k + 1) := by
  rw [jsSlice] at hr hk
  rw [List.drop_take] at hr
  obtain ⟨t, ht⟩ := take_eq_cons hr
  have h1 : (text.drop cursor).drop (k + 1) = t := by
    have h2 : List.drop 1 (List.drop k (text.drop cursor))
        = (text.drop cursor).drop (k + 1) := by
      rw [List.drop_drop]
    rw [← h2, ht]
    rfl
  rw [ht, h1]

/-- The chunking loop reconstructs its input: concatenating the produced
blocks, re-inserting the single consumed character at each soft cut (a
newline, or the period of a ". " pair — the following space is *kept* at
the head of the next block) and nothing at hard cuts, yields the text
from the cursor position on. -/
theorem chunkLoopF_reconstruct (text : List Char) (maxLen : Nat)
    (hm : 1 ≤ maxLen) :
    ∀ (fuel cursor : Nat), text.length - cursor ≤ fuel →
      ∃ seps, (∀ sp ∈ seps, sp = [] ∨ sp = ['\n'] ∨ sp = ['.']) ∧
        interleave (chunkLoopF text maxLen fuel cursor) seps
          = text.drop cursor := by
  intro fuel
  induction fuel with
  | zero =>
    intro cursor hc
    refine ⟨[], by simp, ?_⟩
    have hd : text.drop cursor = [] := List.drop_eq_nil_of_le (by omega)
    simp [chunkLoopF, interleave, hd]
  | succ fuel ih =>
    intro cursor hc
    by_cases hcur : cursor < text.length
    · have hnext : cursor < min text.length (cursor + maxLen) :=
        lt_min hcur (by omega)
      have hnextle : min text.length (cursor + maxLen) ≤ text.length :=
        min_le_left _ _
      simp only [chunkLoopF, if_pos hcur]
      split
      next hsep =>
        obtain ⟨k, hk, hklt, hchar⟩ := sep_spec hsep
        rw [hk]
        obtain ⟨seps, hP, hI⟩ := ih (cursor + k + 1) (by omega)
        have hkw : k < min text.length (cursor + maxLen) - cursor := by
          have := hklt
          rw [jsSlice, List.length_take, List.length_drop] at this
          omega
        have step : ∀ ch : Char,
            (text.drop cursor).drop k = ch :: (text.drop cursor).drop (k + 1) →
            interleave (jsSlice text cursor (cursor + (k : Int).toNat) ::
                chunkLoopF text maxLen fuel (cursor + (k : Int).toNat + 1))
              ([ch] :: seps) = text.drop cursor := by
          intro ch hd
          simp only [Int.toNat_ofNat, interleave]
          rw [hI]
          rw [jsSlice, Nat.add_sub_cancel_left]
          have hdr : text.drop (cursor + k + 1)
              = (text.drop cursor).drop (k + 1) := by
            rw [List.drop_drop, Nat.add_assoc]
          rw [hdr]
          conv_rhs => rw [← List.take_append_drop k (text.drop cursor), hd]
          simp
        rcases hchar with ⟨r, hr⟩ | ⟨r, hr⟩
        · refine ⟨['\n'] :: seps, ?_, ?_⟩
          · intro sp hsp
            rcases List.mem_cons.mp hsp with rfl | h
            · exact Or.inr (Or.inl rfl)
            · exact hP _ h
          · exact step '\n' (drop_head_of_snip hnextle hklt hr)
        · refine ⟨['.'] :: seps, ?_, ?_⟩
          · intro sp hsp
            rcases List.mem_cons.mp hsp with rfl | h
            · exact Or.inr (Or.inr rfl)
            · exact hP _ h
          · exact step '.' (drop_head_of_snip hnextle hklt hr)
      next hsep =>
        obtain ⟨seps, hP, hI⟩ := ih (min text.length (cursor + maxLen))
          (by omega)
        refine ⟨[] :: seps, ?_, ?_⟩
        · intro sp hsp
          rcases List.mem_cons.mp hsp with rfl | h
          · exact Or.inl rfl
          · exact hP _ h
        · simp only [interleave]
          rw [hI]
          rw [jsSlice]
          have : text.drop (min text.length (cursor + maxLen))
              = (text.drop cursor).drop (min text.length (cursor + maxLen) - cursor) := by
            rw [List.drop_drop]
            congr 1
            omega
          rw [this]
          simp [List.take_append_drop]
    · refine ⟨[], by simp, ?_⟩
      have hd : text.drop cursor = [] := List.drop_eq_nil_of_le (by omega)
      simp only [chunkLoopF, if_neg hcur]
      simp [interleave, hd]

/-- The paragraph split reconstructs its input when the consumed
double-newline separators are re-inserted between consecutive parts. -/
theorem paragraphSplit_reconstruct (acc l : List Char) :
    ∃ seps, (∀ sp ∈ seps, sp = ['\n', '\n']) ∧
      interleave (paragraphSplit acc l) seps = acc.reverse ++ l := by
  induction acc, l using paragraphSplit.induct with
  | case1 acc c rest hup ih =>
    obtain ⟨seps, hP, hI⟩ := ih
    refine ⟨['\n', '\n'] :: seps, ?_, ?_⟩
    · intro sp hsp
      rcases List.mem_cons.mp hsp with rfl | h
      · rfl
      · exact hP _ h
    · rw [paragraphSplit, if_pos hup]
      simp only [interleave]
      rw [hI]
      simp
  | case2 acc c rest hup ih =>
    obtain ⟨seps, hP, hI⟩ := ih
    refine ⟨seps, hP, ?_⟩
    rw [paragraphSplit, if_neg hup, hI]
    simp
  | case3 acc c rest hne ih =>
    obtain ⟨seps, hP, hI⟩ := ih
    refine ⟨seps, hP, ?_⟩
    have he : paragraphSplit acc (c :: rest) = paragraphSplit (c :: acc) rest := by
      simp_all [paragraphSplit]
    rw [he, hI]
    simp
  | case4 acc => exact ⟨[], by simp, by simp [paragraphSplit, interleave]⟩

/-! ## Claim C8 (corrected)

Returned blocks are indeed non-empty after trimming, but reconstruction
is not "input minus the `". "` separator": only the period is consumed at
such a cut (the space stays at the head of the next block), and the final
filter drops whitespace-only blocks entirely, so reconstruction holds for
the block lists *before* the filter. -/

/-- Claim C8, counterexample: `"ab. cd"` with `maxLen = 4` cuts at the
`". "`, but only the period is consumed — the space survives at the head
of the second block, so the concatenation is not the input minus the
`". "` separator (`"abcd"`). -/
theorem claim_C8_counterexample :
    splitIntoSubblocks "ab. cd" 4 = ["ab", " cd"] ∧
    String.join (splitIntoSubblocks "ab. cd" 4) ≠ "abcd" := by
  decide

/-- Claim C8 as amended: every returned block is non-empty after
trimming; the pre-filter paragraph parts reconstruct the input when the
consumed double newlines are re-inserted; and for `maxLen ≥ 1` the
pre-filter chunk blocks reconstruct the input when the single consumed
character of each soft cut (the newline, or the period of a `". "` pair,
whose following space is retained in the next block) is re-inserted.
The final filter then drops whitespace-only blocks. -/
theorem claim_C8 :
    (∀ (text : String) (maxLen : Nat), ∀ b ∈ splitIntoSubblocks text maxLen,
       jsTrim b.data ≠ []) ∧
    (∀ acc l : List Char, ∃ seps, (∀ sp ∈ seps, sp = ['\n', '\n']) ∧
       interleave (paragraphSplit acc l) seps = acc.reverse ++ l) ∧
    (∀ (text : List Char) (maxLen : Nat), 1 ≤ maxLen →
       ∃ seps, (∀ sp ∈ seps, sp = [] ∨ sp = ['\n'] ∨ sp = ['.']) ∧
         interleave (chunkLoop text maxLen) seps = text) := by
  refine ⟨?_, paragraphSplit_reconstruct, ?_⟩
  · intro text maxLen b hb
    simp only [splitIntoSubblocks] at hb
    obtain ⟨p, hpf, rfl⟩ := List.mem_map.mp hb
    have h2 := (List.mem_filter.mp hpf).2
    intro hnil
    rw [show (List.asString p).data = p from rfl] at hnil
    rw [hnil] at h2
    simp at h2
  · intro text maxLen hm
    obtain ⟨seps, hP, hI⟩ := chunkLoopF_reconstruct text maxLen hm
      text.length 0 (by omega)
    refine ⟨seps, hP, ?_⟩
    rw [chunkLoop, hI, List.drop_zero]

/-- Witness for C8: concrete instances of the trimmed-non-empty and the
chunk reconstruction statements. -/
theorem claim_C8_witness :
    jsTrim ("ab" : String).data ≠ [] ∧
    (∃ seps, (∀ sp ∈ seps, sp = [] ∨ sp = ['\n'] ∨ sp = ['.']) ∧
       interleave (chunkLoop ("ab. cd" : String).data 4) seps
         = ("ab. cd" : String).data) :=
  ⟨claim_C8.1 "ab. cd" 4 "ab" (by decide),
   claim_C8.2.2 ("ab. cd" : String).data 4 (by decide)⟩


/-! ## Claim C4 (corrected)

In a JavaScript regex `\A` is an identity escape matching the literal
letter `A`, not a start-of-string anchor, so the italic stages

    html.replace(/(\s|\A)_(?!_)([^_]+)_/g, "$1<i>$2</i>")

convert an underscore pair only after a whitespace character or after a
literal `A` — never at the start of the string. -/

/-- Claim C4, counterexample: `renderMarkdown "_a_ b"` is returned
unchanged — it contains no `<` at all, hence no italic span, contradicting
"produces exactly one italic span ... preserving the start-of-string
position". -/
theorem claim_C4_counterexample :
    renderMarkdown "_a_ b" = "_a_ b" ∧
    (renderMarkdown "_a_ b").data.count '<' = 0 := by
  decide

/-- Claim C4 as amended: `renderMarkdown "_a_ b"` produces no italic
span (the underscore pair at the start of the string is not converted,
because `(\s|\A)` matches whitespace or a literal `A`, never
start-of-string), and `renderMarkdown "_a_b_"` likewise leaves all
underscores untouched.  After a whitespace boundary — or, spuriously,
after a literal `A` — a single underscore pair is converted. -/
theorem claim_C4 :
    renderMarkdown "_a_ b" = "_a_ b" ∧
    renderMarkdown "_a_b_" = "_a_b_" ∧
    renderMarkdown " _a_ b" = " <i>a</i> b" ∧
    renderMarkdown "A_a_b" = "A<i>a</i>b" := by
  decide


/-! ## Provenance and erasure lemmas for the formatter (Claim C1)

Claim C1 is about characters of the output that *originate in the raw
input*.  The generic lemmas below show (i) that the `Char × Origin`
instance of every stage erases (via `Prod.fst`) to the plain `Char`
instance, and (ii) that stage outputs only contain input characters,
`mk`-built characters, and `cleanLink` results over input characters —
so that once the escaping stages have eliminated every raw `&`, `<`, `>`,
no later stage can reintroduce a raw-tagged one. -/

theorem stripDotRuns_subset (char : α → Char) (l : List α) :
    ∀ z ∈ stripDotRuns char l, z ∈ l := by
  induction l using stripDotRuns.induct char with
  | case1 a b c rest h ih =>
    simp only [stripDotRuns, if_pos h]
    intro z hz
    simp [ih z hz]
  | case2 a b c rest h1 h2 ih =>
    simp only [stripDotRuns, if_neg h1, if_pos h2]
    intro z hz
    have := ih z hz
    simp_all
  | case3 a b c rest h1 h2 =>
    simp only [stripDotRuns, if_neg h1, if_neg h2]
    exact fun z hz => hz
  | case4 a b rest hnc h ih =>
    cases rest with
    | cons c r => exact (hnc c r rfl).elim
    | nil =>
      simp only [stripDotRuns, if_pos h]
      intro z hz
      exact absurd hz (List.not_mem_nil z)
  | case5 a b rest hnc h =>
    cases rest with
    | cons c r => exact (hnc c r rfl).elim
    | nil =>
      simp only [stripDotRuns, if_neg h]
      exact fun z hz => hz
  | case6 l h1 h2 =>
    match l, h1, h2 with
    | [], _, _ => intro z hz; simp [stripDotRuns] at hz
    | [a], _, _ => intro z hz; simp only [stripDotRuns] at hz; exact hz
    | a :: b :: rest, h1, h2 => exact (h2 a b rest rfl).elim

theorem stripDotRuns_map (char : α → Char) (l : List α) :
    List.map char (stripDotRuns char l) = stripDotRuns id (List.map char l) := by
  induction l using stripDotRuns.induct char with
  | case1 a b c rest h ih => simp [stripDotRuns, h, ih]
  | case2 a b c rest h1 h2 ih =>
    simp only [List.map_cons, stripDotRuns, id_eq, h1, h2, if_pos, if_neg, ih,
      Bool.false_eq_true, if_false, if_true]
  | case3 a b c rest h1 h2 =>
    simp only [Bool.and_eq_true, decide_eq_true_eq, Bool.not_eq_true] at h1 h2
    have hc1 : ¬((char a = '.' ∧ char b = '.') ∧ char c = '/') := by tauto
    have hc2 : ¬(char a = '.' ∧ char b = '/') := by tauto
    simp [stripDotRuns, hc1, hc2]
  | case4 a b rest hnc h ih =>
    cases rest with
    | cons c r => exact (hnc c r rfl).elim
    | nil => simp_all [stripDotRuns]
  | case5 a b rest hnc h =>
    cases rest with
    | cons c r => exact (hnc c r rfl).elim
    | nil =>
      simp only [Bool.and_eq_true, decide_eq_true_eq, Bool.not_eq_true] at h
      have hc : ¬(char a = '.' ∧ char b = '/') := by tauto
      simp [stripDotRuns, hc]
  | case6 l h1 h2 =>
    match l, h1, h2 with
    | [], _, _ => simp [stripDotRuns]
    | [a], _, _ => simp [stripDotRuns]
    | a :: b :: rest, h1, h2 => exact (h2 a b rest rfl).elim

theorem cleanLinkP_subset (char : α → Char) (mk : Char → α) (l : List α) :
    ∀ z ∈ cleanLinkP char mk l, z ∈ l ∨ z = mk '/' := by
  intro z hz
  simp only [cleanLinkP] at hz
  rw [List.mem_reverse] at hz
  have h4 := (List.dropWhile_sublist _).subset
    ((List.dropWhile_sublist _).subset hz)
  have h2 : z ∈ stripDotRuns char
      (((l.dropWhile (fun a => isJsWhitespace (char a))).reverse).dropWhile
        (fun a => isJsWhitespace (char a))) ∨ z = mk '/' := by
    split at h4
    · rcases List.mem_cons.mp h4 with rfl | hm
      · exact Or.inr rfl
      · exact Or.inl hm
    · exact Or.inl h4
  rcases h2 with h2 | h2
  · have h1 := stripDotRuns_subset char _ z h2
    have h0 := (List.dropWhile_sublist _).subset h1
    rw [List.mem_reverse] at h0
    exact Or.inl ((List.dropWhile_sublist _).subset h0)
  · exact Or.inr h2

theorem runTpl_prop {mk : Char → α} {clean : List α → List α}
    (P : α → Prop) (hmk : ∀ c, P (mk c))
    (hclean : ∀ l, (∀ y ∈ l, P y) → ∀ z ∈ clean l, P z)
    {s : List α} (hs : ∀ x ∈ s, P x) (t : List TItem) :
    ∀ z ∈ runTpl mk clean s t, P z := by
  intro z hz
  simp only [runTpl, List.mem_flatten] at hz
  obtain ⟨l, hl, hzl⟩ := hz
  obtain ⟨it, _, rfl⟩ := List.mem_map.mp hl
  cases it with
  | lit c =>
    simp only [runTItem, List.mem_singleton] at hzl
    exact hzl ▸ hmk c
  | seg a n =>
    exact hs z (List.drop_subset a s (List.take_subset n _ hzl))
  | cseg a n =>
    exact hclean _
      (fun y hy => hs y (List.drop_subset a s (List.take_subset n _ hy))) z hzl

theorem scanReplF_prop {char : α → Char} {mk : Char → α}
    {clean : List α → List α} {find : Matcher}
    (P : α → Prop) (hmk : ∀ c, P (mk c))
    (hclean : ∀ l, (∀ y ∈ l, P y) → ∀ z ∈ clean l, P z) :
    ∀ (fuel : Nat) (prev : Option Char) (s : List α), (∀ x ∈ s, P x) →
      ∀ z ∈ scanReplF char mk clean find fuel prev s, P z := by
  intro fuel
  induction fuel with
  | zero => intro prev s hs z hz; exact hs z hz
  | succ fuel ih =>
    intro prev s hs z hz
    match s with
    | [] => simp [scanReplF] at hz
    | a :: rest =>
      rw [scanReplF] at hz
      rcases hfind : find prev (List.map char (a :: rest)) with _ | ⟨t, k⟩ <;>
        rw [hfind] at hz
      · rcases List.mem_cons.mp hz with rfl | hm
        · exact hs z (List.mem_cons_self z rest)
        · exact ih _ rest (fun x hx => hs x (List.mem_cons_of_mem a hx)) z hm
      · rcases List.mem_append.mp hz with hm | hm
        · exact runTpl_prop P hmk hclean hs t z hm
        · exact ih _ _ (fun x hx => hs x (List.drop_subset _ _ hx)) z hm

theorem scanRepl_prop {char : α → Char} {mk : Char → α}
    {clean : List α → List α} {find : Matcher}
    (P : α → Prop) (hmk : ∀ c, P (mk c))
    (hclean : ∀ l, (∀ y ∈ l, P y) → ∀ z ∈ clean l, P z)
    {s : List α} (hs : ∀ x ∈ s, P x) :
    ∀ z ∈ scanRepl char mk clean find s, P z :=
  scanReplF_prop P hmk hclean s.length none s hs

theorem scanReplTop_prop {char : α → Char} {mk : Char → α}
    {clean : List α → List α} {find : Matcher}
    {findTop : List Char → Option (List TItem × Nat)}
    (P : α → Prop) (hmk : ∀ c, P (mk c))
    (hclean : ∀ l, (∀ y ∈ l, P y) → ∀ z ∈ clean l, P z)
    {s : List α} (hs : ∀ x ∈ s, P x) :
    ∀ z ∈ scanReplTop char mk clean findTop find s, P z := by
  intro z hz
  rw [scanReplTop] at hz
  rcases hfind : findTop (List.map char s) with _ | ⟨t, k⟩ <;> rw [hfind] at hz
  · exact scanRepl_prop P hmk hclean hs z hz
  · rcases List.mem_append.mp hz with hm | hm
    · exact runTpl_prop P hmk hclean hs t z hm
    · exact scanReplF_prop P hmk hclean _ _ _
        (fun x hx => hs x (List.drop_subset _ _ hx)) z hm

theorem bulletP_prop {char : α → Char} {mk : Char → α}
    (P : α → Prop) (hmk : ∀ c, P (mk c)) :
    ∀ (b : Bool) (s : List α), (∀ x ∈ s, P x) →
      ∀ z ∈ bulletP char mk b s, P z := by
  intro b s
  induction b, s using bulletP.induct char mk with
  | case1 b => intro _ z hz; simp [bulletP] at hz
  | case2 atStart x y rest h ih =>
    intro hs z hz
    rw [bulletP] at hz
    simp only [if_pos h] at hz
    rcases List.mem_append.mp hz with hm | hm
    · obtain ⟨c, _, rfl⟩ := List.mem_map.mp hm
      exact hmk c
    · exact ih (fun w hw => hs w (List.mem_cons_of_mem x
        (List.mem_cons_of_mem y hw))) z hm
  | case3 atStart x y rest h ih =>
    intro hs z hz
    rw [bulletP] at hz
    simp only [if_neg h] at hz
    rcases List.mem_cons.mp hz with rfl | hm
    · exact hs z (List.mem_cons_self z _)
    · exact ih (fun w hw => hs w (List.mem_cons_of_mem x hw)) z hm
  | case4 atStart x =>
    intro hs z hz
    rw [bulletP] at hz
    rcases List.mem_singleton.mp hz with rfl
    exact hs z (List.mem_cons_self z [])


/-! ## Erasure: the tagged instance projects to the plain instance -/

theorem dropWhile_map_fun (f : α → β) (p : β → Bool) (l : List α) :
    (l.map f).dropWhile p = (l.dropWhile (fun a => p (f a))).map f :=
  List.dropWhile_map f p l

theorem cleanLinkP_map (char : α → Char) (mk : Char → α)
    (hck : ∀ c, char (mk c) = c) (l : List α) :
    List.map char (cleanLinkP char mk l)
      = cleanLinkP id id (List.map char l) := by
  simp only [cleanLinkP, id_eq]
  rw [dropWhile_map_fun char (fun a => isJsWhitespace a) l, ← List.map_reverse,
    dropWhile_map_fun char (fun a => isJsWhitespace a), ← stripDotRuns_map]
  simp only [List.length_map]
  set r1 := ((l.dropWhile fun a => isJsWhitespace (char a)).reverse).dropWhile
    (fun a => isJsWhitespace (char a)) with hr1
  set r2 := stripDotRuns char r1 with hr2
  by_cases hc : r2.length < r1.length
  · rw [if_pos hc, if_pos hc, ← hck '/', ← List.map_cons,
      dropWhile_map_fun char (fun a => isUrlJunk a),
      dropWhile_map_fun char (fun a => isJsWhitespace a), ← List.map_reverse,
      hck '/']
  · rw [if_neg hc, if_neg hc,
      dropWhile_map_fun char (fun a => isUrlJunk a),
      dropWhile_map_fun char (fun a => isJsWhitespace a), ← List.map_reverse]


theorem runTItem_map (char : α → Char) (mk : Char → α)
    (clean : List α → List α) (clean2 : List Char → List Char)
    (hck : ∀ c, char (mk c) = c)
    (hcl : ∀ l, List.map char (clean l) = clean2 (List.map char l))
    (s : List α) (it : TItem) :
    List.map char (runTItem mk clean s it)
      = runTItem id clean2 (List.map char s) it := by
  cases it with
  | lit c => simp [runTItem, hck]
  | seg a n => simp [runTItem, List.map_take, List.map_drop]
  | cseg a n => simp [runTItem, hcl, List.map_take, List.map_drop]

theorem runTpl_map (char : α → Char) (mk : Char → α)
    (clean : List α → List α) (clean2 : List Char → List Char)
    (hck : ∀ c, char (mk c) = c)
    (hcl : ∀ l, List.map char (clean l) = clean2 (List.map char l))
    (s : List α) (t : List TItem) :
    List.map char (runTpl mk clean s t)
      = runTpl id clean2 (List.map char s) t := by
  simp only [runTpl, List.map_flatten, List.map_map]
  congr 1
  refine List.map_congr_left fun it _ => ?_
  simp only [Function.comp_apply]
  exact runTItem_map char mk clean clean2 hck hcl s it

theorem scanReplF_map (char : α → Char) (mk : Char → α)
    (clean : List α → List α) (clean2 : List Char → List Char)
    (find : Matcher)
    (hck : ∀ c, char (mk c) = c)
    (hcl : ∀ l, List.map char (clean l) = clean2 (List.map char l)) :
    ∀ (fuel : Nat) (prev : Option Char) (s : List α),
      List.map char (scanReplF char mk clean find fuel prev s)
        = scanReplF id id clean2 find fuel prev (List.map char s) := by
  intro fuel
  induction fuel with
  | zero => intro prev s; rfl
  | succ fuel ih =>
    intro prev s
    match s with
    | [] => rfl
    | a :: rest =>
      rw [scanReplF, List.map_cons, scanReplF]
      simp only [List.map_id, Option.map_id, id_eq]
      rcases hfind : find prev (char a :: List.map char rest) with _ | ⟨t, k⟩ <;>
        dsimp only
      · rw [List.map_cons, ih]
      · rw [List.map_append, runTpl_map char mk clean clean2 hck hcl,
          ih, ← List.map_cons, ← List.map_take, List.getLast?_map,
          List.map_drop]

theorem scanRepl_map (char : α → Char) (mk : Char → α)
    (clean : List α → List α) (clean2 : List Char → List Char)
    (find : Matcher)
    (hck : ∀ c, char (mk c) = c)
    (hcl : ∀ l, List.map char (clean l) = clean2 (List.map char l))
    (s : List α) :
    List.map char (scanRepl char mk clean find s)
      = scanRepl id id clean2 find (List.map char s) := by
  rw [scanRepl, scanRepl, List.length_map]
  exact scanReplF_map char mk clean clean2 find hck hcl s.length none s

theorem scanReplTop_map (char : α → Char) (mk : Char → α)
    (clean : List α → List α) (clean2 : List Char → List Char)
    (findTop : List Char → Option (List TItem × Nat)) (find : Matcher)
    (hck : ∀ c, char (mk c) = c)
    (hcl : ∀ l, List.map char (clean l) = clean2 (List.map char l))
    (s : List α) :
    List.map char (scanReplTop char mk clean findTop find s)
      = scanReplTop id id clean2 findTop find (List.map char s) := by
  unfold scanReplTop
  simp only [List.map_id, Option.map_id, id_eq]
  rcases hfind : findTop (List.map char s) with _ | ⟨t, k⟩ <;> dsimp only
  · exact scanRepl_map char mk clean clean2 find hck hcl s
  · rw [List.map_append, runTpl_map char mk clean clean2 hck hcl,
      scanReplF_map char mk clean clean2 find hck hcl,
      ← List.map_take, List.getLast?_map, ← List.map_drop, List.length_map]

theorem bulletP_map (char : α → Char) (mk : Char → α)
    (hck : ∀ c, char (mk c) = c) :
    ∀ (b : Bool) (s : List α),
      List.map char (bulletP char mk b s)
        = bulletP id id b (List.map char s) := by
  intro b s
  induction b, s using bulletP.induct char mk with
  | case1 b => simp [bulletP]
  | case2 atStart x y rest h ih =>
    rw [List.map_cons, List.map_cons, bulletP, bulletP]
    simp only [id_eq, if_pos h]
    rw [List.map_append, ih]
    simp [List.map_map, Function.comp, hck]
  | case3 atStart x y rest h ih =>
    rw [List.map_cons, List.map_cons, bulletP, bulletP]
    simp only [id_eq, if_neg h]
    rw [List.map_cons, ih, List.map_cons]
  | case4 atStart x => simp [bulletP]

theorem renderMarkdownP_map (char : α → Char) (mk : Char → α)
    (hck : ∀ c, char (mk c) = c) (s : List α) :
    List.map char (renderMarkdownP char mk s)
      = renderMarkdownP id id (List.map char s) := by
  have hcl : ∀ l, List.map char (cleanLinkP char mk l)
      = cleanLinkP id id (List.map char l) := cleanLinkP_map char mk hck
  simp only [renderMarkdownP]
  rw [scanRepl_map char mk _ _ brM hck hcl,
    scanReplTop_map char mk _ _ httpTop httpM hck hcl,
    scanReplTop_map char mk _ _ wwwTop wwwM hck hcl,
    bulletP_map char mk hck,
    scanRepl_map char mk _ _ (mdLinkM false) hck hcl,
    scanRepl_map char mk _ _ (italM '_') hck hcl,
    scanRepl_map char mk _ _ (italM '*') hck hcl,
    scanRepl_map char mk _ _ (boldM '_') hck hcl,
    scanRepl_map char mk _ _ (boldM '*') hck hcl,
    scanRepl_map char mk _ _ emailLinkM hck hcl,
    scanRepl_map char mk _ _ (mdLinkM true) hck hcl,
    scanRepl_map char mk _ _ (escM '\'' "&#39;") hck hcl,
    scanRepl_map char mk _ _ (escM '"' "&quot;") hck hcl,
    scanRepl_map char mk _ _ (escM '>' "&gt;") hck hcl,
    scanRepl_map char mk _ _ (escM '<' "&lt;") hck hcl,
    scanRepl_map char mk _ _ (escM '&' "&amp;") hck hcl,
    scanRepl_map char mk _ _ dedupM hck hcl,
    scanRepl_map char mk _ _ mailtoUnwrapM hck hcl]


/-! ## Provenance: every unsafe character in the output is formatter-made -/

theorem runTpl_tpl_mem {mk : Char → α} {clean : List α → List α}
    {s : List α} {r : String} {z : α}
    (hz : z ∈ runTpl mk clean s (tpl r)) : ∃ c, z = mk c := by
  simp only [runTpl, tpl, List.map_map, List.mem_flatten] at hz
  obtain ⟨l, hl, hzl⟩ := hz
  obtain ⟨c, _, rfl⟩ := List.mem_map.mp hl
  simp only [Function.comp_apply, runTItem] at hzl
  rcases List.mem_singleton.mp hzl with rfl
  exact ⟨c, rfl⟩

theorem scanReplF_escM {char : α → Char} {mk : Char → α}
    {clean : List α → List α} (c0 : Char) (rep : String) :
    ∀ (fuel : Nat) (prev : Option Char) (s : List α), s.length ≤ fuel →
      ∀ z ∈ scanReplF char mk clean (escM c0 rep) fuel prev s,
        (∃ c, z = mk c) ∨ char z ≠ c0 := by
  intro fuel
  induction fuel with
  | zero =>
    intro prev s hlen z hz
    have hs : s = [] := List.eq_nil_of_length_eq_zero (Nat.le_zero.mp hlen)
    subst hs
    simp [scanReplF] at hz
  | succ fuel ih =>
    intro prev s hlen z hz
    match s, hlen with
    | [], _ => simp [scanReplF] at hz
    | a :: rest, hlen =>
      rw [scanReplF, List.map_cons] at hz
      simp only [escM] at hz
      have hlen' : rest.length ≤ fuel := by
        simpa using Nat.succ_le_succ_iff.mp (by simpa using hlen)
      by_cases hc : char a = c0
      · simp only [if_pos hc] at hz
        rcases List.mem_append.mp hz with hm | hm
        · exact Or.inl (runTpl_tpl_mem hm)
        · have hd : (a :: rest).drop ((1 : Nat).max 1) = rest := by simp
          rw [hd] at hm
          exact ih _ rest hlen' z hm
      · simp only [if_neg hc] at hz
        rcases List.mem_cons.mp hz with rfl | hm
        · exact Or.inr hc
        · exact ih _ rest hlen' z hm

theorem cleanLinkP_pred {char : α → Char} {mk : Char → α}
    (P : α → Prop) (hmk : ∀ c, P (mk c)) :
    ∀ l, (∀ y ∈ l, P y) → ∀ z ∈ cleanLinkP char mk l, P z := by
  intro l hl z hz
  rcases cleanLinkP_subset char mk l z hz with h | h
  · exact hl z h
  · rw [h]; exact hmk '/'

theorem escChain_safe {char : α → Char} {mk : Char → α} {t2 : List α} :
    ∀ z ∈ scanRepl char mk (cleanLinkP char mk) (escM '>' "&gt;")
        (scanRepl char mk (cleanLinkP char mk) (escM '<' "&lt;")
          (scanRepl char mk (cleanLinkP char mk) (escM '&' "&amp;") t2)),
      (∃ c, z = mk c) ∨ (char z ≠ '&' ∧ char z ≠ '<' ∧ char z ≠ '>') := by
  have hmA : ∀ c : Char, (∃ d, (mk c : α) = mk d) ∨ char (mk c) ≠ '&' :=
    fun c => Or.inl ⟨c, rfl⟩
  have hmL : ∀ c : Char, (∃ d, (mk c : α) = mk d) ∨ char (mk c) ≠ '<' :=
    fun c => Or.inl ⟨c, rfl⟩
  intro z hz
  have hA : ∀ w ∈ scanRepl char mk (cleanLinkP char mk) (escM '&' "&amp;") t2,
      (∃ c, w = mk c) ∨ char w ≠ '&' := by
    intro w hw
    rw [scanRepl] at hw
    exact scanReplF_escM '&' "&amp;" _ none _ le_rfl w hw
  have hB : ∀ w ∈ scanRepl char mk (cleanLinkP char mk) (escM '<' "&lt;")
      (scanRepl char mk (cleanLinkP char mk) (escM '&' "&amp;") t2),
      (∃ c, w = mk c) ∨ char w ≠ '&' :=
    scanRepl_prop _ hmA (cleanLinkP_pred _ hmA) hA
  have hBlt : ∀ w ∈ scanRepl char mk (cleanLinkP char mk) (escM '<' "&lt;")
      (scanRepl char mk (cleanLinkP char mk) (escM '&' "&amp;") t2),
      (∃ c, w = mk c) ∨ char w ≠ '<' := by
    intro w hw
    rw [scanRepl] at hw
    exact scanReplF_escM '<' "&lt;" _ none _ le_rfl w hw
  have h1 := scanRepl_prop _ hmA (cleanLinkP_pred _ hmA) hB z hz
  have h2 := scanRepl_prop _ hmL (cleanLinkP_pred _ hmL) hBlt z hz
  have h3 : (∃ c, z = mk c) ∨ char z ≠ '>' := by
    rw [scanRepl] at hz
    exact scanReplF_escM '>' "&gt;" _ none _ le_rfl z hz
  rcases h1 with h1 | h1
  · exact Or.inl h1
  rcases h2 with h2 | h2
  · exact Or.inl h2
  rcases h3 with h3 | h3
  · exact Or.inl h3
  exact Or.inr ⟨h1, h2, h3⟩

theorem renderMarkdownP_safe (char : α → Char) (mk : Char → α) (s : List α) :
    ∀ z ∈ renderMarkdownP char mk s,
      (∃ c, z = mk c) ∨ (char z ≠ '&' ∧ char z ≠ '<' ∧ char z ≠ '>') := by
  have hm : ∀ c : Char, (∃ d, (mk c : α) = mk d) ∨
      (char (mk c) ≠ '&' ∧ char (mk c) ≠ '<' ∧ char (mk c) ≠ '>') :=
    fun c => Or.inl ⟨c, rfl⟩
  have hc := @cleanLinkP_pred _ char mk
    (fun w => (∃ d, w = mk d) ∨ (char w ≠ '&' ∧ char w ≠ '<' ∧ char w ≠ '>')) hm
  intro z hz
  simp only [renderMarkdownP] at hz
  exact scanRepl_prop
    (fun w => (∃ c, w = mk c) ∨ (char w ≠ '&' ∧ char w ≠ '<' ∧ char w ≠ '>'))
    hm hc
    (scanReplTop_prop _ hm hc
      (scanReplTop_prop _ hm hc
        (bulletP_prop _ hm _ _
          (scanRepl_prop _ hm hc
            (scanRepl_prop _ hm hc
              (scanRepl_prop _ hm hc
                (scanRepl_prop _ hm hc
                  (scanRepl_prop _ hm hc
                    (scanRepl_prop _ hm hc
                      (scanRepl_prop _ hm hc
                        (scanRepl_prop _ hm hc
                          (scanRepl_prop _ hm hc
                            escChain_safe)))))))))))) z hz


theorem asString_data (l : List Char) : l.asString.data = l := rfl

/-- Claim C1: the Text Formatter's `render` is HTML-safe for raw input.
Running the formatter with provenance tags (`renderMarkdownT`: every
input character tagged `raw`, every formatter-generated character tagged
`gen`) projects back to exactly `renderMarkdown`'s output, and no
character of the output that still carries the `raw` tag — i.e. that
originates from the raw input text — is `<`, `>` or `&`: such characters
appear in the output only as part of markup the formatter itself
generated. -/
theorem claim_C1 (t : String) :
    (renderMarkdown t).data = (renderMarkdownT t).map Prod.fst ∧
    (∀ z ∈ renderMarkdownT t, z.2 = Origin.raw →
      z.1 ≠ '<' ∧ z.1 ≠ '>' ∧ z.1 ≠ '&') := by
  constructor
  · have e1 : renderMarkdown t = (renderMarkdownP id id t.data).asString := rfl
    have e2 := asString_data (renderMarkdownP id id t.data)
    have h := renderMarkdownP_map Prod.fst (fun c => (c, Origin.gen))
      (fun c => rfl) (t.data.map (fun c => (c, Origin.raw)))
    have h2 : List.map Prod.fst (t.data.map (fun c => (c, Origin.raw)))
        = t.data := by
      rw [List.map_map]
      have hco : (Prod.fst ∘ fun c : Char => (c, Origin.raw)) = id := rfl
      rw [hco, List.map_id]
    rw [e1, e2, renderMarkdownT, h, h2]
  · intro z hz hraw
    rw [renderMarkdownT] at hz
    rcases renderMarkdownP_safe Prod.fst (fun c => (c, Origin.gen))
        (t.data.map (fun c => (c, Origin.raw))) z hz with ⟨c, rfl⟩ | h
    · simp at hraw
    · exact ⟨h.2.1, h.2.2, h.1⟩

theorem claim_C1_witness :
    ('H', Origin.raw) ∈ renderMarkdownT "Hi" ∧
    (('H', Origin.raw).1 ≠ '<' ∧ ('H', Origin.raw).1 ≠ '>' ∧
      ('H', Origin.raw).1 ≠ '&') :=
  ⟨by decide, (claim_C1 "Hi").2 ('H', Origin.raw) (by decide) rfl⟩

end Chatbot
